import Mathlib

/-!
Verification of the VTR_Tacview ingestion and simulation pipeline.

The development shallowly embeds the ACMI text parser
(`src/services/acmi-parser.service.ts`) and the simulation/interpolation
engine (`src/services/simulation.service.ts`, together with the coordinate
and rotation utilities it calls) into Lean.

Modelling conventions:
* JavaScript numbers are modelled as `JSNum := Option ℚ`, where `none`
  stands for a non-finite value (NaN, and the rare infinities that
  `parseFloat` or a division by zero can produce).  All arithmetic
  operations propagate `none`, and every comparison involving `none` is
  `false`, matching IEEE/JS semantics of NaN.  Finite float rounding is
  idealised away by working in ℚ.
* `Math.sin`, `Math.cos`, `Math.sqrt`, `Math.asin`, `Math.atan2` and the
  constant `Math.PI` are transcendental; they are abstracted as the fields
  of a `MathOps` parameter, and every theorem quantifies over an arbitrary
  `MathOps`.  All the control flow and all the rational arithmetic of the
  source are embedded concretely.
* JavaScript `Map` (insertion ordered, last-write-wins `set`) is modelled
  as an association list with `jsMapGet` / `jsMapSet`.
* The module-level scratch objects (`tempEuler`, `tempQuaternion`) that
  the source mutates in its hot path are threaded explicitly through a
  `Scratch` value, so that "no hidden mutable interpolation state leaks
  between calls" is a provable statement rather than a triviality.
-/

set_option autoImplicit false

/-! ## JavaScript number model -/

/-- A JavaScript number: `some q` is the finite value `q`, `none` is a
non-finite value (NaN or an infinity). -/
abbrev JSNum := Option ℚ

def jsAdd (a b : JSNum) : JSNum :=
  match a, b with
  | some x, some y => some (x + y)
  | _, _ => none

def jsSub (a b : JSNum) : JSNum :=
  match a, b with
  | some x, some y => some (x - y)
  | _, _ => none

def jsMul (a b : JSNum) : JSNum :=
  match a, b with
  | some x, some y => some (x * y)
  | _, _ => none

/-- Division; division by zero yields a non-finite value in JS. -/
def jsDiv (a b : JSNum) : JSNum :=
  match a, b with
  | some x, some y => if y = 0 then none else some (x / y)
  | _, _ => none

def jsNeg (a : JSNum) : JSNum := a.map (fun x => -x)

def jsAbs (a : JSNum) : JSNum := a.map (fun x => |x|)

/-- Strict `<`; false whenever an operand is non-finite, as for NaN in JS. -/
def jsLt (a b : JSNum) : Bool :=
  match a, b with
  | some x, some y => x < y
  | _, _ => false

def jsLe (a b : JSNum) : Bool :=
  match a, b with
  | some x, some y => x ≤ y
  | _, _ => false

def jsGt (a b : JSNum) : Bool := jsLt b a

def jsGe (a b : JSNum) : Bool := jsLe b a

/-- JavaScript `===` on numbers (`NaN === x` is false). -/
def jsEq (a b : JSNum) : Bool :=
  match a, b with
  | some x, some y => x == y
  | _, _ => false

/-- `Math.max` (NaN-propagating). -/
def jsMax (a b : JSNum) : JSNum :=
  match a, b with
  | some x, some y => some (max x y)
  | _, _ => none

/-- `Math.min` (NaN-propagating). -/
def jsMin (a b : JSNum) : JSNum :=
  match a, b with
  | some x, some y => some (min x y)
  | _, _ => none

/-- Truncation toward zero, as used by the JS `%` operator. -/
def ratTrunc (q : ℚ) : ℤ := if 0 ≤ q then ⌊q⌋ else ⌈q⌉

/-- JavaScript remainder `a % b` (sign follows the dividend). -/
def jsMod (a b : JSNum) : JSNum :=
  match a, b with
  | some x, some y => if y = 0 then none else some (x - y * (ratTrunc (x / y) : ℚ))
  | _, _ => none

/-! ## String helpers (JS semantics) -/

/-- Characters removed by `String.prototype.trim` that actually occur in
ACMI text. -/
def jsIsWhite (c : Char) : Bool := c = ' ' ∨ c = '\t' ∨ c = '\r' ∨ c = '\n'

/-- JS `trim`. -/
def jsTrim (s : String) : String :=
  String.mk (((s.toList.dropWhile jsIsWhite).reverse.dropWhile jsIsWhite).reverse)

/-- JS `startsWith`. -/
def jsStartsWith (s pre : String) : Bool := pre.toList.isPrefixOf s.toList

/-- JS `endsWith`. -/
def jsEndsWith (s suf : String) : Bool := suf.toList.isSuffixOf s.toList

/-- JS `substring(n)` (drop the first `n` characters). -/
def jsDropChars (s : String) (n : ℕ) : String := String.mk (s.toList.drop n)

def splitLinesAux : List Char → List Char → List String
  | [], acc => [String.mk acc.reverse]
  | '\r' :: '\n' :: rest, acc => String.mk acc.reverse :: splitLinesAux rest []
  | '\n' :: rest, acc => String.mk acc.reverse :: splitLinesAux rest []
  | c :: rest, acc => splitLinesAux rest (c :: acc)

/-- `fileContent.split(/\r?\n/)`: split on `\n`, also consuming a `\r`
immediately before it. -/
def splitLines (s : String) : List String := splitLinesAux s.toList []

def splitOnCharAux (sep : Char) : List Char → List Char → List String
  | [], acc => [String.mk acc.reverse]
  | c :: rest, acc =>
    if c = sep then String.mk acc.reverse :: splitOnCharAux sep rest []
    else splitOnCharAux sep rest (c :: acc)

/-- JS `String.prototype.split` with a single-character separator. -/
def splitOnChar (sep : Char) (s : String) : List String := splitOnCharAux sep s.toList []

/-! ## parseFloat -/

def spanDigits (cs : List Char) : List Char × List Char :=
  (cs.takeWhile Char.isDigit, cs.dropWhile Char.isDigit)

def digitsToNat (ds : List Char) : ℕ :=
  ds.foldl (fun a c => 10 * a + (c.toNat - 48)) 0

/-- Exponent part of a JS float literal: consumed only when at least one
digit follows the `e`; otherwise the mantissa alone is the parsed prefix. -/
def parseExponent (cs : List Char) : ℤ :=
  match cs with
  | c :: rest =>
    if c = 'e' ∨ c = 'E' then
      match rest with
      | '-' :: r => -(digitsToNat (spanDigits r).1 : ℤ) * (if (spanDigits r).1 = [] then 0 else 1)
      | '+' :: r => (digitsToNat (spanDigits r).1 : ℤ)
      | r => (digitsToNat (spanDigits r).1 : ℤ)
    else 0
  | [] => 0

/-- JS `parseFloat`: skip leading whitespace, read an optional sign and the
longest decimal-literal prefix; yield NaN (`none`) when no digit is found.
Non-finite results ("Infinity", overflowing exponents) are also `none`. -/
def parseFloat (s : String) : JSNum :=
  let cs := s.toList.dropWhile jsIsWhite
  let signAndRest : ℚ × List Char :=
    match cs with
    | '-' :: rest => (-1, rest)
    | '+' :: rest => (1, rest)
    | _ => (1, cs)
  let intPart := spanDigits signAndRest.2
  let afterInt := intPart.2
  let fracAndRest : List Char × List Char :=
    match afterInt with
    | '.' :: rest => spanDigits rest
    | _ => ([], afterInt)
  if intPart.1 = [] ∧ fracAndRest.1 = [] then none
  else
    let mantissa : ℚ :=
      (digitsToNat intPart.1 : ℚ) + (digitsToNat fracAndRest.1 : ℚ) / (10 ^ fracAndRest.1.length)
    some (signAndRest.1 * mantissa * (10 : ℚ) ^ parseExponent fracAndRest.2)

/-! ## Association-list model of JS `Map` -/

def jsMapGet {α : Type} (m : List (String × α)) (k : String) : Option α :=
  (m.find? (fun p => p.1 = k)).map (fun p => p.2)

/-- JS `Map.set`: overwrite in place when the key exists (keeping insertion
order), append otherwise. -/
def jsMapSet {α : Type} (m : List (String × α)) (k : String) (v : α) : List (String × α) :=
  if (m.find? (fun p => p.1 = k)).isSome then
    m.map (fun p => if p.1 = k then (k, v) else p)
  else m ++ [(k, v)]

/-! ## Parser data model (models/acmi.model.ts) -/

/-- One observed sample (`TimeState`).  `roll`/`pitch`/`yaw` are `none`
when the sub-field was absent (`undefined`); a present sub-field can still
be NaN, hence `Option JSNum`. -/
structure TimeState where
  time : JSNum
  longitude : JSNum
  latitude : JSNum
  altitude : JSNum
  roll : Option JSNum
  pitch : Option JSNum
  yaw : Option JSNum
deriving Repr, DecidableEq

/-- A tracked object (`AcmiObject`). -/
structure AcmiObject where
  id : String
  properties : List (String × String)
  states : List TimeState
  removedAtTime : Option JSNum
deriving Repr, DecidableEq

/-- The parse result (`AcmiData`).  `referenceTimeRaw` keeps the raw string
handed to the `Date` constructor (`value.trim() + 'Z'`); `none` stands for
the epoch default `new Date(0)`. -/
structure AcmiData where
  objects : List (String × AcmiObject)
  startTime : JSNum
  endTime : JSNum
  referenceTimeRaw : Option String
  referenceLongitude : JSNum
  referenceLatitude : JSNum
deriving Repr, DecidableEq

/-! ## The parser (services/acmi-parser.service.ts) -/

/-- Loop state of `parse` (the locals of the single forward pass). -/
structure PState where
  fileVersion : String
  referenceTimeRaw : Option String
  referenceLongitude : JSNum
  referenceLatitude : JSNum
  objects : List (String × AcmiObject)
  currentTime : JSNum
  startTime : Option JSNum
  endTime : JSNum
  inHeader : Bool
deriving Repr, DecidableEq

def initialPState : PState :=
  { fileVersion := ""
    referenceTimeRaw := none
    referenceLongitude := some 0
    referenceLatitude := some 0
    objects := []
    currentTime := some 0
    startTime := none
    endTime := some 0
    inHeader := true }

/-- `tokenizeLine`: split on commas, a `"` toggles the in-quotes flag and
commas inside quotes are literal; quote characters themselves are kept. -/
def tokenizeStep (st : List String × List Char × Bool) (c : Char) : List String × List Char × Bool :=
  let inQuotes := if c = '"' then !st.2.2 else st.2.2
  if c = ',' ∧ !inQuotes then (st.1 ++ [String.mk st.2.1.reverse], [], inQuotes)
  else (st.1, c :: st.2.1, inQuotes)

def tokenizeLine (line : String) : List String :=
  let st := line.toList.foldl tokenizeStep ([], [], false)
  st.1 ++ [String.mk st.2.1.reverse]

/-- Strip one pair of surrounding double quotes.  JS `substring(1, len-1)`
swaps its arguments when `start > end`, so a one-character value `"` is
returned unchanged; the `2 ≤ length` guard reproduces exactly that. -/
def unquoteValue (value : String) : String :=
  if jsStartsWith value "\"" ∧ jsEndsWith value "\"" ∧ 2 ≤ value.toList.length then
    String.mk ((value.toList.drop 1).dropLast)
  else value

/-- `splitKeyValue`: split at the first `=` (whole string as key and empty
value when there is none), unquoting the value. -/
def splitKeyValue (pair : String) : String × String :=
  match (pair.toList.findIdx? (fun c => c = '=')) with
  | none => (pair, "")
  | some i =>
    (String.mk (pair.toList.take i), unquoteValue (String.mk (pair.toList.drop (i + 1))))

/-- `value.split('|').map(v => v ? parseFloat(v) : undefined)`: the
sub-fields of a `T` value.  An element `none` is `undefined` (empty
sub-field); `some none` is a present but non-numeric sub-field (NaN). -/
def tParsedValues (v : String) : List (Option JSNum) :=
  (splitOnChar '|' v).map (fun x => if x = "" then none else some (parseFloat x))

/-- Processing of one `key=value` token of an object-update line (the body
of the `for (const part of parts.slice(1))` loop), on the already split
pair.  The destructuring `[lon, lat, alt, roll, pitch, yaw] = values`
yields `undefined` past the end of the array, hence `getD _ none`. -/
def applyKV (currentTime : JSNum) (obj : AcmiObject) (kv : String × String) : AcmiObject :=
  if kv.1 = "" then obj
  else if kv.1 = "T" then
    match (tParsedValues kv.2).getD 0 none, (tParsedValues kv.2).getD 1 none,
          (tParsedValues kv.2).getD 2 none with
    | some lo, some la, some al =>
      { obj with states := obj.states ++
          [{ time := currentTime, longitude := lo, latitude := la, altitude := al
             roll := (tParsedValues kv.2).getD 3 none
             pitch := (tParsedValues kv.2).getD 4 none
             yaw := (tParsedValues kv.2).getD 5 none }] }
    | _, _, _ => obj
  else
    { obj with properties := jsMapSet obj.properties kv.1 kv.2 }

/-- One token: split it, then apply.  (`value === undefined` never holds,
since `splitKeyValue` always returns a string value; `!key` holds exactly
for the empty key, checked inside `applyKV`.) -/
def applyPart (currentTime : JSNum) (obj : AcmiObject) (part : String) : AcmiObject :=
  applyKV currentTime obj (splitKeyValue part)

def emptyObject (id : String) : AcmiObject :=
  { id := id, properties := [], states := [], removedAtTime := none }

/-- `let obj = objects.get(id); if (!obj) obj = fresh` of the object-update
branch. -/
def getOrCreate (objects : List (String × AcmiObject)) (id : String) : AcmiObject :=
  match jsMapGet objects id with
  | some o => o
  | none => emptyObject id

/-- The header-field switch of `parse`, on the already split
`[key, value]` pair of the whole trimmed line. -/
def processHeaderField (st : PState) (kv : String × String) : PState :=
  if kv.1 = "FileVersion" then { st with fileVersion := kv.2 }
  else if kv.1 = "ReferenceTime" then { st with referenceTimeRaw := some (jsTrim kv.2 ++ "Z") }
  else if kv.1 = "ReferenceLongitude" then { st with referenceLongitude := parseFloat kv.2 }
  else if kv.1 = "ReferenceLatitude" then { st with referenceLatitude := parseFloat kv.2 }
  else st

/-- Processing of one significant line after the file-type header has been
validated (frame marker / header field / removal / object update). -/
def processLine (st : PState) (tl : String) : PState :=
  if jsStartsWith tl "#" then
    let t := parseFloat (jsDropChars tl 1)
    { st with inHeader := false
              currentTime := t
              startTime := match st.startTime with
                           | none => some t
                           | some s0 => some s0
              endTime := jsMax st.endTime t }
  else if st.inHeader then
    processHeaderField st (splitKeyValue tl)
  else if jsStartsWith tl "-" then
    match jsMapGet st.objects (jsDropChars tl 1) with
    | some o =>
      { st with objects := jsMapSet st.objects (jsDropChars tl 1)
                  { o with removedAtTime := some st.currentTime } }
    | none => st
  else
    match tokenizeLine tl with
    | [] => st
    | id :: restParts =>
      { st with objects := jsMapSet st.objects id (restParts.foldl (applyPart st.currentTime) (getOrCreate st.objects id)) }

/-- One line of the validated phase: trim, skip blank/comment lines,
otherwise `processLine`. -/
def bodyStep (st : PState) (line : String) : PState :=
  let tl := jsTrim line
  if tl = "" ∨ jsStartsWith tl "//" then st else processLine st tl

def runBody (st : PState) (lines : List String) : PState := lines.foldl bodyStep st

def formatErrorMsg : String :=
  "Invalid ACMI file: \"FileType=text/acmi/tacview\" header not found."

/-- The single pass of `parse`.  The source keeps a `fileTypeValidated`
flag; structurally it skips insignificant lines, then either throws (first
significant line is not the file-type header) or, once validated, runs the
remaining lines through `bodyStep` and never throws again. -/
def processLines (st : PState) : List String → Except String PState
  | [] => Except.ok st
  | line :: rest =>
    let tl := jsTrim line
    if tl = "" ∨ jsStartsWith tl "//" then processLines st rest
    else if tl = "FileType=text/acmi/tacview" then Except.ok (runBody st rest)
    else Except.error formatErrorMsg

/-- Defaults applied after the pass plus the record assembly. -/
def finalizeParse (st : PState) : AcmiData :=
  { objects := st.objects
    startTime := match st.startTime with
                 | none => some 0
                 | some t => t
    endTime := st.endTime
    referenceTimeRaw := st.referenceTimeRaw
    referenceLongitude := st.referenceLongitude
    referenceLatitude := st.referenceLatitude }

/-- `AcmiParserService.parse` (the promise resolution / rejection is
modelled by `Except`). -/
def parse (fileContent : String) : Except String AcmiData :=
  (processLines initialPState (splitLines fileContent)).map finalizeParse

/-! ## Abstract transcendental operations

`Math.sin` etc. operate on binary floats; they are abstracted as an
arbitrary `MathOps` record, over which every theorem quantifies.  The
liftings below add the NaN-propagation of the JS originals. -/

structure MathOps where
  sin : ℚ → ℚ
  cos : ℚ → ℚ
  sqrt : ℚ → ℚ
  asin : ℚ → ℚ
  atan2 : ℚ → ℚ → ℚ
  pi : ℚ

def jsSin (m : MathOps) (a : JSNum) : JSNum := a.map m.sin

def jsCos (m : MathOps) (a : JSNum) : JSNum := a.map m.cos

/-- `Math.sqrt`: NaN on NaN and on negative arguments. -/
def jsSqrt (m : MathOps) (a : JSNum) : JSNum :=
  match a with
  | some x => if x < 0 then none else some (m.sqrt x)
  | none => none

def jsAsin (m : MathOps) (a : JSNum) : JSNum := a.map m.asin

def jsAtan2 (m : MathOps) (a b : JSNum) : JSNum :=
  match a, b with
  | some x, some y => some (m.atan2 x y)
  | _, _ => none

/-- `THREE.MathUtils.degToRad`: multiply by `Math.PI / 180`. -/
def degToRad (m : MathOps) (a : JSNum) : JSNum := jsMul a (jsDiv (some m.pi) (some 180))

/-- `THREE.MathUtils.radToDeg`: multiply by `180 / Math.PI`. -/
def radToDeg (m : MathOps) (a : JSNum) : JSNum := jsMul a (jsDiv (some 180) (some m.pi))

/-- `THREE.MathUtils.clamp(value, min, max) = Math.max(min, Math.min(max, value))`. -/
def jsClamp (value lo hi : JSNum) : JSNum := jsMax lo (jsMin hi value)

/-! ## Minimal THREE.js value model (Vector3, Matrix4, Euler, Quaternion) -/

structure Vec3 where
  x : JSNum
  y : JSNum
  z : JSNum
deriving Repr, DecidableEq

/-- 4×4 matrix; field `nij` is row `i`, column `j` (THREE's `set` order). -/
structure Mat4 where
  n11 : JSNum
  n12 : JSNum
  n13 : JSNum
  n14 : JSNum
  n21 : JSNum
  n22 : JSNum
  n23 : JSNum
  n24 : JSNum
  n31 : JSNum
  n32 : JSNum
  n33 : JSNum
  n34 : JSNum
  n41 : JSNum
  n42 : JSNum
  n43 : JSNum
  n44 : JSNum
deriving Repr, DecidableEq

/-- `new THREE.Matrix4().makeBasis(xAxis, yAxis, zAxis)`: the axes become
the columns of the rotation block. -/
def makeBasis (xA yA zA : Vec3) : Mat4 :=
  { n11 := xA.x, n12 := yA.x, n13 := zA.x, n14 := some 0
    n21 := xA.y, n22 := yA.y, n23 := zA.y, n24 := some 0
    n31 := xA.z, n32 := yA.z, n33 := zA.z, n34 := some 0
    n41 := some 0, n42 := some 0, n43 := some 0, n44 := some 1 }

def matTranspose (a : Mat4) : Mat4 :=
  { n11 := a.n11, n12 := a.n21, n13 := a.n31, n14 := a.n41
    n21 := a.n12, n22 := a.n22, n23 := a.n32, n24 := a.n42
    n31 := a.n13, n32 := a.n23, n33 := a.n33, n34 := a.n43
    n41 := a.n14, n42 := a.n24, n43 := a.n34, n44 := a.n44 }

/-- `new THREE.Matrix4().makeTranslation(x, y, z)`. -/
def makeTranslation (tx ty tz : JSNum) : Mat4 :=
  { n11 := some 1, n12 := some 0, n13 := some 0, n14 := tx
    n21 := some 0, n22 := some 1, n23 := some 0, n24 := ty
    n31 := some 0, n32 := some 0, n33 := some 1, n34 := tz
    n41 := some 0, n42 := some 0, n43 := some 0, n44 := some 1 }

def dot4 (a b c d e f g h : JSNum) : JSNum :=
  jsAdd (jsAdd (jsMul a e) (jsMul b f)) (jsAdd (jsMul c g) (jsMul d h))

/-- `a.multiply(b)`, i.e. the matrix product `a * b`. -/
def matMul (a b : Mat4) : Mat4 :=
  { n11 := dot4 a.n11 a.n12 a.n13 a.n14 b.n11 b.n21 b.n31 b.n41
    n12 := dot4 a.n11 a.n12 a.n13 a.n14 b.n12 b.n22 b.n32 b.n42
    n13 := dot4 a.n11 a.n12 a.n13 a.n14 b.n13 b.n23 b.n33 b.n43
    n14 := dot4 a.n11 a.n12 a.n13 a.n14 b.n14 b.n24 b.n34 b.n44
    n21 := dot4 a.n21 a.n22 a.n23 a.n24 b.n11 b.n21 b.n31 b.n41
    n22 := dot4 a.n21 a.n22 a.n23 a.n24 b.n12 b.n22 b.n32 b.n42
    n23 := dot4 a.n21 a.n22 a.n23 a.n24 b.n13 b.n23 b.n33 b.n43
    n24 := dot4 a.n21 a.n22 a.n23 a.n24 b.n14 b.n24 b.n34 b.n44
    n31 := dot4 a.n31 a.n32 a.n33 a.n34 b.n11 b.n21 b.n31 b.n41
    n32 := dot4 a.n31 a.n32 a.n33 a.n34 b.n12 b.n22 b.n32 b.n42
    n33 := dot4 a.n31 a.n32 a.n33 a.n34 b.n13 b.n23 b.n33 b.n43
    n34 := dot4 a.n31 a.n32 a.n33 a.n34 b.n14 b.n24 b.n34 b.n44
    n41 := dot4 a.n41 a.n42 a.n43 a.n44 b.n11 b.n21 b.n31 b.n41
    n42 := dot4 a.n41 a.n42 a.n43 a.n44 b.n12 b.n22 b.n32 b.n42
    n43 := dot4 a.n41 a.n42 a.n43 a.n44 b.n13 b.n23 b.n33 b.n43
    n44 := dot4 a.n41 a.n42 a.n43 a.n44 b.n14 b.n24 b.n34 b.n44 }

/-- `Vector3.applyMatrix4` (including THREE's perspective divide by `w`;
for the affine matrices built here `w = 1`). -/
def applyMatrix4 (v : Vec3) (e : Mat4) : Vec3 :=
  let w := jsDiv (some 1) (jsAdd (jsAdd (jsMul e.n41 v.x) (jsMul e.n42 v.y)) (jsAdd (jsMul e.n43 v.z) e.n44))
  { x := jsMul (jsAdd (jsAdd (jsMul e.n11 v.x) (jsMul e.n12 v.y)) (jsAdd (jsMul e.n13 v.z) e.n14)) w
    y := jsMul (jsAdd (jsAdd (jsMul e.n21 v.x) (jsMul e.n22 v.y)) (jsAdd (jsMul e.n23 v.z) e.n24)) w
    z := jsMul (jsAdd (jsAdd (jsMul e.n31 v.x) (jsMul e.n32 v.y)) (jsAdd (jsMul e.n33 v.z) e.n34)) w }

def vecSub (a b : Vec3) : Vec3 :=
  { x := jsSub a.x b.x, y := jsSub a.y b.y, z := jsSub a.z b.z }

/-- `Vector3.divideScalar(s)` is `multiplyScalar(1 / s)` in THREE. -/
def divideScalar (v : Vec3) (s : JSNum) : Vec3 :=
  let inv := jsDiv (some 1) s
  { x := jsMul v.x inv, y := jsMul v.y inv, z := jsMul v.z inv }

/-- `Vector3.distanceTo` = `sqrt(distanceToSquared)`. -/
def distanceTo (m : MathOps) (a b : Vec3) : JSNum :=
  let dx := jsSub a.x b.x
  let dy := jsSub a.y b.y
  let dz := jsSub a.z b.z
  jsSqrt m (jsAdd (jsAdd (jsMul dx dx) (jsMul dy dy)) (jsMul dz dz))

/-- Euler angles; every use in the source fixes the order `'ZYX'`, so the
order field is left out. -/
structure Euler where
  x : JSNum
  y : JSNum
  z : JSNum
deriving Repr, DecidableEq

structure Quat where
  qx : JSNum
  qy : JSNum
  qz : JSNum
  qw : JSNum
deriving Repr, DecidableEq

/-- `Quaternion.setFromEuler` for order `'ZYX'`.  All four components are
assigned, so the prior value `_q` is irrelevant (write-before-read). -/
def setFromEulerZYX (_q : Quat) (e : Euler) (m : MathOps) : Quat :=
  let two : JSNum := some 2
  let c1 := jsCos m (jsDiv e.x two)
  let c2 := jsCos m (jsDiv e.y two)
  let c3 := jsCos m (jsDiv e.z two)
  let s1 := jsSin m (jsDiv e.x two)
  let s2 := jsSin m (jsDiv e.y two)
  let s3 := jsSin m (jsDiv e.z two)
  { qx := jsSub (jsMul (jsMul s1 c2) c3) (jsMul (jsMul c1 s2) s3)
    qy := jsAdd (jsMul (jsMul c1 s2) c3) (jsMul (jsMul s1 c2) s3)
    qz := jsSub (jsMul (jsMul c1 c2) s3) (jsMul (jsMul s1 s2) c3)
    qw := jsAdd (jsMul (jsMul c1 c2) c3) (jsMul (jsMul s1 s2) s3) }


/-- `Number.EPSILON` (2⁻⁵²). -/
def numberEpsilon : ℚ := 1 / 4503599627370496

/-- `Quaternion.normalize`: divide by the length, or reset to the identity
quaternion when the length is exactly 0. -/
def quatNormalize (m : MathOps) (q : Quat) : Quat :=
  let l := jsSqrt m (jsAdd (jsAdd (jsMul q.qx q.qx) (jsMul q.qy q.qy))
                           (jsAdd (jsMul q.qz q.qz) (jsMul q.qw q.qw)))
  if jsEq l (some 0) then { qx := some 0, qy := some 0, qz := some 0, qw := some 1 }
  else
    let inv := jsDiv (some 1) l
    { qx := jsMul q.qx inv, qy := jsMul q.qy inv, qz := jsMul q.qz inv, qw := jsMul q.qw inv }

/-- `Quaternion.slerp(qb, t)` called on a copy of `qa`
(THREE.js implementation, embedded branch by branch). -/
def quatSlerp (m : MathOps) (qa qb : Quat) (t : JSNum) : Quat :=
  if jsEq t (some 0) then qa
  else if jsEq t (some 1) then qb
  else
    let cosHalfTheta :=
      jsAdd (jsAdd (jsMul qa.qw qb.qw) (jsMul qa.qx qb.qx))
            (jsAdd (jsMul qa.qy qb.qy) (jsMul qa.qz qb.qz))
    let flipped : Quat × JSNum :=
      if jsLt cosHalfTheta (some 0) then
        ({ qx := jsNeg qb.qx, qy := jsNeg qb.qy, qz := jsNeg qb.qz, qw := jsNeg qb.qw },
         jsNeg cosHalfTheta)
      else (qb, cosHalfTheta)
    let target := flipped.1
    let cht := flipped.2
    if jsGe cht (some 1) then qa
    else
      let sqrSinHalfTheta := jsSub (some 1) (jsMul cht cht)
      if jsLe sqrSinHalfTheta (some numberEpsilon) then
        let s := jsSub (some 1) t
        quatNormalize m
          { qx := jsAdd (jsMul s qa.qx) (jsMul t target.qx)
            qy := jsAdd (jsMul s qa.qy) (jsMul t target.qy)
            qz := jsAdd (jsMul s qa.qz) (jsMul t target.qz)
            qw := jsAdd (jsMul s qa.qw) (jsMul t target.qw) }
      else
        let sinHalfTheta := jsSqrt m sqrSinHalfTheta
        let halfTheta := jsAtan2 m sinHalfTheta cht
        let rA := jsDiv (jsSin m (jsMul (jsSub (some 1) t) halfTheta)) sinHalfTheta
        let rB := jsDiv (jsSin m (jsMul t halfTheta)) sinHalfTheta
        { qx := jsAdd (jsMul qa.qx rA) (jsMul target.qx rB)
          qy := jsAdd (jsMul qa.qy rA) (jsMul target.qy rB)
          qz := jsAdd (jsMul qa.qz rA) (jsMul target.qz rB)
          qw := jsAdd (jsMul qa.qw rA) (jsMul target.qw rB) }

/-- `Euler.setFromQuaternion(q, 'ZYX')`: THREE builds the rotation matrix of
`q` and decomposes it.  All three angle fields are assigned
(write-before-read), so the prior value `_e` is irrelevant. -/
def setFromQuaternionZYX (_e : Euler) (q : Quat) (m : MathOps) : Euler :=
  let x2 := jsAdd q.qx q.qx
  let y2 := jsAdd q.qy q.qy
  let z2 := jsAdd q.qz q.qz
  let xx := jsMul q.qx x2
  let xy := jsMul q.qx y2
  let xz := jsMul q.qx z2
  let yy := jsMul q.qy y2
  let yz := jsMul q.qy z2
  let zz := jsMul q.qz z2
  let wx := jsMul q.qw x2
  let wy := jsMul q.qw y2
  let wz := jsMul q.qw z2
  let m11 := jsSub (some 1) (jsAdd yy zz)
  let m12 := jsSub xy wz
  let m21 := jsAdd xy wz
  let m22 := jsSub (some 1) (jsAdd xx zz)
  let m31 := jsSub xz wy
  let m32 := jsAdd yz wx
  let m33 := jsSub (some 1) (jsAdd xx yy)
  let ey := jsAsin m (jsNeg (jsClamp m31 (some (-1)) (some 1)))
  if jsLt (jsAbs m31) (some (9999999 / 10000000)) then
    { x := jsAtan2 m m32 m33, y := ey, z := jsAtan2 m m21 m11 }
  else
    { x := some 0, y := ey, z := jsAtan2 m (jsNeg m12) m22 }

/-! ## Coordinate utilities (utils/coordinates.ts) -/

/-- WGS84 semi-major axis (meters). -/
def wgsA : ℚ := 6378137

/-- WGS84 flattening. -/
def wgsF : ℚ := 1 / (298.257223563 : ℚ)

/-- Square of eccentricity, `F * (2 - F)`. -/
def wgsE2 : ℚ := wgsF * (2 - wgsF)

/-- `wgs84ToEcef(lat, lon, alt)`. -/
def wgs84ToEcef (m : MathOps) (lat lon alt : JSNum) : Vec3 :=
  let latRad := degToRad m lat
  let lonRad := degToRad m lon
  let cosLat := jsCos m latRad
  let sinLat := jsSin m latRad
  let cosLon := jsCos m lonRad
  let sinLon := jsSin m lonRad
  let n := jsDiv (some wgsA)
                 (jsSqrt m (jsSub (some 1) (jsMul (some wgsE2) (jsMul sinLat sinLat))))
  { x := jsMul (jsMul (jsAdd n alt) cosLat) cosLon
    y := jsMul (jsMul (jsAdd n alt) cosLat) sinLon
    z := jsMul (jsAdd (jsMul n (jsSub (some 1) (some wgsE2))) alt) sinLat }

/-- `ecefToEnu(originEcef, lat, lon)`: basis rotation (transposed
`makeBasis` of the east/north/up vectors) times the translation by the
negated origin — translate first, then rotate. -/
def ecefToEnu (m : MathOps) (originEcef : Vec3) (lat lon : JSNum) : Mat4 :=
  let latRad := degToRad m lat
  let lonRad := degToRad m lon
  let cosLat := jsCos m latRad
  let sinLat := jsSin m latRad
  let cosLon := jsCos m lonRad
  let sinLon := jsSin m lonRad
  let east : Vec3 := { x := jsNeg sinLon, y := cosLon, z := some 0 }
  let north : Vec3 := { x := jsNeg (jsMul sinLat cosLon), y := jsNeg (jsMul sinLat sinLon), z := cosLat }
  let up : Vec3 := { x := jsMul cosLat cosLon, y := jsMul cosLat sinLon, z := sinLat }
  let rotationMatrix := matTranspose (makeBasis east north up)
  let translationMatrix := makeTranslation (jsNeg originEcef.x) (jsNeg originEcef.y) (jsNeg originEcef.z)
  matMul rotationMatrix translationMatrix

/-! ## Rotation utilities (utils/interpolation.ts) -/

/-- The module-level scratch objects the source mutates while computing:
`tempEuler`/`tempQuaternion` of `utils/interpolation.ts` and `tempEuler` of
`simulation.service.ts` (its `tempVec3_1`/`tempVec3_2` are never touched by
the embedded paths).  Threaded explicitly to make statements about hidden
mutable state provable. -/
structure Scratch where
  eInterp : Euler
  qInterp : Quat
  eSim : Euler
deriving Repr, DecidableEq

/-- Initial scratch: `new THREE.Euler()` is (0,0,0), `new THREE.Quaternion()`
is the identity. -/
def scratch0 : Scratch :=
  { eInterp := { x := some 0, y := some 0, z := some 0 }
    qInterp := { qx := some 0, qy := some 0, qz := some 0, qw := some 1 }
    eSim := { x := some 0, y := some 0, z := some 0 } }

/-- `eulerToQuaternion(roll, pitch, yaw)`: negate yaw, fill the scratch
Euler with `(pitchRad, yawRad, rollRad)` in order `'ZYX'`, and convert a
clone of the scratch quaternion from it.  Returns the value together with
the updated scratch. -/
def eulerToQuaternion (m : MathOps) (sc : Scratch) (roll pitch yaw : JSNum) : Quat × Scratch :=
  let rollRad := degToRad m roll
  let pitchRad := degToRad m pitch
  let yawRad := degToRad m (jsNeg yaw)
  let e : Euler := { x := pitchRad, y := yawRad, z := rollRad }
  (setFromEulerZYX sc.qInterp e m, { sc with eInterp := e })

/-- `slerpQuaternion(q1, q2, t)`: slerp on a fresh copy of `q1`. -/
def slerpQuaternion (m : MathOps) (q1 q2 : Quat) (t : JSNum) : Quat :=
  quatSlerp m q1 q2 t

/-! ## Simulation engine (services/simulation.service.ts) -/

/-- The per-query output (`InterpolatedState` in models/acmi.model.ts). -/
structure InterpolatedState where
  id : String
  x : JSNum
  y : JSNum
  z : JSNum
  qW : JSNum
  qX : JSNum
  qY : JSNum
  qZ : JSNum
  vX : JSNum
  vY : JSNum
  vZ : JSNum
  color : String
  isActive : Bool
  speed : JSNum
  verticalSpeed : JSNum
  heading : JSNum
deriving Repr, DecidableEq

/-- The `defaultState` literal of `getInterpolatedState`. -/
def defaultStateFor (id : String) : InterpolatedState :=
  { id := id, x := some 0, y := some 0, z := some 0
    qW := some 1, qX := some 0, qY := some 0, qZ := some 0
    vX := some 0, vY := some 0, vZ := some 0
    color := "gray", isActive := false
    speed := some 0, verticalSpeed := some 0, heading := some 0 }

/-- The activity predicate of `getInterpolatedState`:
`obj.states.length > 0 && time >= obj.states[0].time &&
 (obj.removedAtTime === null || time < obj.removedAtTime)`. -/
def isActiveAt (obj : AcmiObject) (time : JSNum) : Bool :=
  match obj.states with
  | [] => false
  | s0 :: _ =>
    jsGe time s0.time &&
    (match obj.removedAtTime with
     | none => true
     | some r => jsLt time r)

/-- Used only for the (unreachable, length-guarded) out-of-range default of
list indexing. -/
def dummyState : TimeState :=
  { time := none, longitude := none, latitude := none, altitude := none
    roll := none, pitch := none, yaw := none }

/-- `obj.states.findIndex(s => s.time > time)` with the source's
`if (i === -1) i = obj.states.length` folded in. -/
def findIdxGt (time : JSNum) : List TimeState → ℕ
  | [] => 0
  | s :: rest => if jsGt s.time time then 0 else (findIdxGt time rest) + 1

/-- The linear-interpolation formula of `getInterpolatedState`:
`v1 + (v2 - v1) * t`. -/
def lerpJS (v1 v2 t : JSNum) : JSNum := jsAdd v1 (jsMul (jsSub v2 v1) t)

/-- The active branch of `getInterpolatedState`, after the bracketing
samples `s1`, `s2` have been selected. -/
def interpolateActive (m : MathOps) (enu : Mat4) (sc : Scratch) (obj : AcmiObject)
    (s1 s2 : TimeState) (time : JSNum) : InterpolatedState × Scratch :=
  let timeDelta := jsSub s2.time s1.time
  let t := if jsEq timeDelta (some 0) then some 1 else jsDiv (jsSub time s1.time) timeDelta
  let lon := lerpJS s1.longitude s2.longitude t
  let lat := lerpJS s1.latitude s2.latitude t
  let alt := lerpJS s1.altitude s2.altitude t
  let ecefPos := wgs84ToEcef m lat lon alt
  let localPos := applyMatrix4 ecefPos enu
  let q1sc := eulerToQuaternion m sc (s1.roll.getD (some 0)) (s1.pitch.getD (some 0)) (s1.yaw.getD (some 0))
  let q2sc := eulerToQuaternion m q1sc.2 (s2.roll.getD (some 0)) (s2.pitch.getD (some 0)) (s2.yaw.getD (some 0))
  let q := slerpQuaternion m q1sc.1 q2sc.1 t
  let kin : JSNum × JSNum × JSNum × JSNum × JSNum :=
    if jsGt timeDelta (some 0) then
      let p1 := applyMatrix4 (wgs84ToEcef m s1.latitude s1.longitude s1.altitude) enu
      let p2 := applyMatrix4 (wgs84ToEcef m s2.latitude s2.longitude s2.altitude) enu
      let distance := distanceTo m p1 p2
      let velocity := divideScalar (vecSub p2 p1) timeDelta
      (jsDiv distance timeDelta, jsDiv (jsSub s2.altitude s1.altitude) timeDelta,
       velocity.x, velocity.y, velocity.z)
    else (some 0, some 0, some 0, some 0, some 0)
  let eAfter := setFromQuaternionZYX q2sc.2.eSim q m
  let heading := jsMod (jsAdd (radToDeg m eAfter.y) (some 360)) (some 360)
  ({ id := obj.id
     x := localPos.x, y := localPos.y, z := localPos.z
     qW := q.qw, qX := q.qx, qY := q.qy, qZ := q.qz
     vX := kin.2.2.1, vY := kin.2.2.2.1, vZ := kin.2.2.2.2
     color := match jsMapGet obj.properties "Color" with
              | none => "cyan"
              | some c => if c = "" then "cyan" else c
     isActive := true
     speed := kin.1, verticalSpeed := kin.2.1
     heading := heading },
   { q2sc.2 with eSim := eAfter })

/-- `getInterpolatedState(obj, time)`.  `enu` is the dereferenced
`this.enuMatrix!`. -/
def getInterpolatedState (m : MathOps) (enu : Mat4) (sc : Scratch) (obj : AcmiObject)
    (time : JSNum) : InterpolatedState × Scratch :=
  if isActiveAt obj time then
    let i := findIdxGt time obj.states
    let s1 := obj.states.getD (i - 1) dummyState
    let s2 := obj.states.getD (min (obj.states.length - 1) i) dummyState
    interpolateActive m enu sc obj s1 s2 time
  else (defaultStateFor obj.id, sc)

/-- The signal state of `SimulationService`. -/
structure SimState where
  time : JSNum
  isPlaying : Bool
  playbackSpeed : JSNum
  duration : JSNum
  isDataLoaded : Bool
  acmiData : Option AcmiData
  originEcef : Option Vec3
  enuMatrix : Option Mat4
deriving DecidableEq

/-- Initial signal values of the service. -/
def initialSimState : SimState :=
  { time := some 0, isPlaying := false, playbackSpeed := some 1, duration := some 0
    isDataLoaded := false, acmiData := none, originEcef := none, enuMatrix := none }

/-- `loadData(data)`. -/
def loadData (m : MathOps) (st : SimState) (data : AcmiData) : SimState :=
  let origin := wgs84ToEcef m data.referenceLatitude data.referenceLongitude (some 0)
  { st with acmiData := some data
            time := data.startTime
            duration := data.endTime
            isDataLoaded := true
            originEcef := some origin
            enuMatrix := some (ecefToEnu m origin data.referenceLatitude data.referenceLongitude) }

/-- `pause()`. -/
def pause (st : SimState) : SimState := { st with isPlaying := false }

/-- `tick(deltaTime)`: the spec's `advance`. -/
def tick (st : SimState) (deltaTime : JSNum) : SimState :=
  if !st.isPlaying || !st.isDataLoaded then st
  else
    let newTime := jsMin (jsAdd st.time (jsMul deltaTime st.playbackSpeed)) st.duration
    let st1 := { st with time := newTime }
    if jsGe st1.time st1.duration then pause st1 else st1

/-- `seek(newTime)`. -/
def seek (st : SimState) (newTime : JSNum) : SimState :=
  if !st.isDataLoaded then st
  else { st with time := jsMax (some 0) (jsMin newTime st.duration) }

/-- `play()`. -/
def play (st : SimState) : SimState :=
  if !st.isDataLoaded then st
  else
    let st1 := if jsGe st.time st.duration then
                 seek st (match st.acmiData with
                          | some d => d.startTime
                          | none => some 0)
               else st
    { st1 with isPlaying := true }

/-- `setSpeed(speed)`. -/
def setSpeed (st : SimState) (speed : JSNum) : SimState := { st with playbackSpeed := speed }

/-- `reset()`. -/
def resetSim (st : SimState) : SimState :=
  { (pause st) with acmiData := none, isDataLoaded := false, time := some 0, duration := some 0 }

/-- Fallback for the non-null assertion `this.enuMatrix!`; reachable only
when a dataset is present while no `loadData` ever ran, which the service
cannot produce. -/
def mat4Identity : Mat4 := makeTranslation (some 0) (some 0) (some 0)

/-- One iteration of the `interpolatedStates` loop:
`currentStates.set(id, this.getInterpolatedState(obj, simTime))`, with the
scratch threaded. -/
def posesFold (m : MathOps) (enu : Mat4) (t : JSNum)
    (acc : List (String × InterpolatedState) × Scratch) (p : String × AcmiObject) :
    List (String × InterpolatedState) × Scratch :=
  ((acc.1 ++ [(p.1, (getInterpolatedState m enu acc.2 p.2 t).1)]),
   (getInterpolatedState m enu acc.2 p.2 t).2)

/-- The `interpolatedStates` computed signal: a fresh map of the pose of
every object at the current time.  The scratch is threaded through the
loop; the simulation state itself is only read. -/
def interpolatedStates (m : MathOps) (st : SimState) (sc : Scratch) :
    List (String × InterpolatedState) × Scratch :=
  match st.acmiData with
  | none => ([], sc)
  | some data =>
    data.objects.foldl (posesFold m (st.enuMatrix.getD mat4Identity) st.time) ([], sc)

/-! ## Derived specification views of the parser input -/

/-- The first non-empty, non-comment line of the input (trimmed). -/
def firstSignificant : List String → Option String
  | [] => none
  | l :: rest =>
    let tl := jsTrim l
    if tl = "" ∨ jsStartsWith tl "//" then firstSignificant rest else some tl

/-- The lines following the file-type header, provided the first
significant line is exactly the header. -/
def bodyLines : List String → Option (List String)
  | [] => none
  | l :: rest =>
    let tl := jsTrim l
    if tl = "" ∨ jsStartsWith tl "//" then bodyLines rest
    else if tl = "FileType=text/acmi/tacview" then some rest
    else none

/-- The parsed times of the frame-marker lines among a list of lines. -/
def frameTimes (ls : List String) : List JSNum :=
  ls.filterMap (fun l =>
    let tl := jsTrim l
    if tl = "" ∨ jsStartsWith tl "//" then none
    else if jsStartsWith tl "#" then some (parseFloat (jsDropChars tl 1))
    else none)

/-- The parsed times of the frame-marker lines of a whole input. -/
def frameTimesOf (s : String) : List JSNum :=
  match bodyLines (splitLines s) with
  | none => []
  | some rest => frameTimes rest

/-! ## Parser lemmas -/

theorem processLines_cons (st : PState) (l : String) (rest : List String) :
    processLines st (l :: rest) =
      (if jsTrim l = "" ∨ jsStartsWith (jsTrim l) "//" then processLines st rest
       else if jsTrim l = "FileType=text/acmi/tacview" then Except.ok (runBody st rest)
       else Except.error formatErrorMsg) := rfl

theorem firstSignificant_cons (l : String) (rest : List String) :
    firstSignificant (l :: rest) =
      (if jsTrim l = "" ∨ jsStartsWith (jsTrim l) "//" then firstSignificant rest
       else some (jsTrim l)) := rfl

theorem bodyLines_cons (l : String) (rest : List String) :
    bodyLines (l :: rest) =
      (if jsTrim l = "" ∨ jsStartsWith (jsTrim l) "//" then bodyLines rest
       else if jsTrim l = "FileType=text/acmi/tacview" then some rest
       else none) := rfl

theorem processLines_error_iff (st : PState) (ls : List String) :
    (∃ e, processLines st ls = Except.error e) ↔
    (∃ l, firstSignificant ls = some l ∧ l ≠ "FileType=text/acmi/tacview") := by
  induction ls with
  | nil => simp [processLines, firstSignificant]
  | cons l rest ih =>
    rw [processLines_cons, firstSignificant_cons]
    by_cases hskip : jsTrim l = "" ∨ jsStartsWith (jsTrim l) "//"
    · rw [if_pos hskip, if_pos hskip]
      exact ih
    · rw [if_neg hskip, if_neg hskip]
      by_cases hhdr : jsTrim l = "FileType=text/acmi/tacview"
      · rw [if_pos hhdr]
        simp [hhdr]
      · rw [if_neg hhdr]
        simp [hhdr]

theorem processLines_ok (st : PState) (ls : List String) (st' : PState)
    (h : processLines st ls = Except.ok st') :
    (bodyLines ls = none ∧ st' = st) ∨
    (∃ rest, bodyLines ls = some rest ∧ st' = runBody st rest) := by
  induction ls with
  | nil =>
    simp only [processLines, Except.ok.injEq] at h
    exact Or.inl ⟨rfl, h.symm⟩
  | cons l rest ih =>
    rw [processLines_cons] at h
    rw [bodyLines_cons]
    by_cases hskip : jsTrim l = "" ∨ jsStartsWith (jsTrim l) "//"
    · rw [if_pos hskip] at h
      rw [if_pos hskip]
      exact ih h
    · rw [if_neg hskip] at h
      rw [if_neg hskip]
      by_cases hhdr : jsTrim l = "FileType=text/acmi/tacview"
      · rw [if_pos hhdr] at h
        rw [if_pos hhdr]
        exact Or.inr ⟨rest, rfl, (Except.ok.inj h).symm⟩
      · rw [if_neg hhdr] at h
        exact absurd h (by simp)

/-! ## Claim C6 -/

/-- Claim C6: `parse` fails exactly when the first non-empty, non-comment
line of the input is not the literal file-type header
`FileType=text/acmi/tacview`; whenever that first significant line is the
header, `parse` returns a dataset and never throws, whatever the later
lines contain; and a failing `parse` returns an error only (no partial
dataset), which the `Except` result type exhibits. -/
theorem claim6_parse_error_iff_bad_header (s : String) :
    ((∃ e, parse s = Except.error e) ↔
      (∃ l, firstSignificant (splitLines s) = some l ∧ l ≠ "FileType=text/acmi/tacview"))
    ∧ ((∃ d, parse s = Except.ok d) ↔
      ¬ (∃ l, firstSignificant (splitLines s) = some l ∧ l ≠ "FileType=text/acmi/tacview")) := by
  have h1 : (∃ e, parse s = Except.error e) ↔
      (∃ l, firstSignificant (splitLines s) = some l ∧ l ≠ "FileType=text/acmi/tacview") := by
    constructor
    · rintro ⟨e, he⟩
      unfold parse at he
      cases hp : processLines initialPState (splitLines s) with
      | ok st => rw [hp] at he; exact absurd he (by simp [Except.map])
      | error e2 => exact (processLines_error_iff initialPState (splitLines s)).1 ⟨e2, hp⟩
    · intro h
      rcases (processLines_error_iff initialPState (splitLines s)).2 h with ⟨e, he⟩
      exact ⟨e, by unfold parse; rw [he]; rfl⟩
  refine ⟨h1, ?_, ?_⟩
  · rintro ⟨d, hd⟩ hbad
    rcases h1.2 hbad with ⟨e, he⟩
    rw [hd] at he
    exact Except.noConfusion he
  · intro h
    cases hp : parse s with
    | ok d => exact ⟨d, rfl⟩
    | error e => exact absurd (h1.1 ⟨e, hp⟩) h

/-! ## Claim C1 -/

/-- The §6 sample input of the specification. -/
def sample6 : String :=
  "FileType=text/acmi/tacview\nFileVersion=2.2\n0,ReferenceTime=2020-01-01T00:00:00\n0,ReferenceLongitude=30.0\n0,ReferenceLatitude=50.0\n#1.00\nA100,T=30.01|50.01|1000|0|0|90,Name=Test,Color=Red\n#2.00\nA100,T=30.02|50.02|1000\n-A100"

/-- Claim C1 (failing input): on the §6 sample the parser leaves
`referenceLongitude`/`referenceLatitude` at their defaults 0/0 instead of
the claimed 30.0/50.0.  The header branch hands the whole trimmed line to
`splitKeyValue`, so the key is `0,ReferenceLongitude` — which matches no
case of the header switch — and the field is silently ignored. -/
theorem claim1_sample_reference_fields_ignored :
    (parse sample6).map AcmiData.referenceLongitude = Except.ok (some 0)
    ∧ (parse sample6).map AcmiData.referenceLatitude = Except.ok (some 0)
    ∧ (splitKeyValue "0,ReferenceLongitude=30.0").1 = "0,ReferenceLongitude"
    ∧ ((some (0 : ℚ) : JSNum) = some 30 → False)
    ∧ ((some (0 : ℚ) : JSNum) = some 50 → False) := by
  refine ⟨by with_unfolding_all exact rfl, by with_unfolding_all exact rfl,
          by with_unfolding_all exact rfl, ?_, ?_⟩
  · intro h
    exact absurd (Option.some.inj h) (by norm_num)
  · intro h
    exact absurd (Option.some.inj h) (by norm_num)

/-! ## Claim C4 -/

theorem frameTimes_cons (l : String) (rest : List String) :
    frameTimes (l :: rest) =
      (if jsTrim l = "" ∨ jsStartsWith (jsTrim l) "//" then frameTimes rest
       else if jsStartsWith (jsTrim l) "#" then
         parseFloat (jsDropChars (jsTrim l) 1) :: frameTimes rest
       else frameTimes rest) := by
  by_cases hskip : jsTrim l = "" ∨ jsStartsWith (jsTrim l) "//"
  · rw [if_pos hskip]
    unfold frameTimes
    rw [List.filterMap_cons, if_pos hskip]
  · rw [if_neg hskip]
    by_cases hf : jsStartsWith (jsTrim l) "#" = true
    · rw [if_pos hf]
      unfold frameTimes
      rw [List.filterMap_cons, if_neg hskip, if_pos hf]
    · rw [if_neg hf]
      unfold frameTimes
      rw [List.filterMap_cons, if_neg hskip, if_neg hf]

theorem processLine_frame (st : PState) (tl : String) (h : jsStartsWith tl "#" = true) :
    (processLine st tl).startTime =
      (match st.startTime with
       | none => some (parseFloat (jsDropChars tl 1))
       | some s0 => some s0)
    ∧ (processLine st tl).endTime = jsMax st.endTime (parseFloat (jsDropChars tl 1)) := by
  unfold processLine
  rw [if_pos h]
  exact ⟨rfl, rfl⟩

theorem processHeaderField_start_end (st : PState) (kv : String × String) :
    (processHeaderField st kv).startTime = st.startTime
    ∧ (processHeaderField st kv).endTime = st.endTime := by
  unfold processHeaderField
  repeat' split
  all_goals exact ⟨rfl, rfl⟩

theorem processLine_nonframe (st : PState) (tl : String) (h : ¬ jsStartsWith tl "#" = true) :
    (processLine st tl).startTime = st.startTime
    ∧ (processLine st tl).endTime = st.endTime := by
  unfold processLine
  rw [if_neg h]
  by_cases hh : st.inHeader = true
  · rw [if_pos hh]
    exact processHeaderField_start_end st (splitKeyValue tl)
  · rw [if_neg hh]
    repeat' split
    all_goals exact ⟨rfl, rfl⟩

theorem runBody_start_end (ls : List String) (st : PState) :
    (runBody st ls).startTime =
      (match st.startTime with
       | some t0 => some t0
       | none => (frameTimes ls).head?)
    ∧ (runBody st ls).endTime = (frameTimes ls).foldl jsMax st.endTime := by
  induction ls generalizing st with
  | nil =>
    have hrb : runBody st [] = st := rfl
    rw [hrb]
    refine ⟨?_, rfl⟩
    cases hst : st.startTime <;> rfl
  | cons l rest ih =>
    have hrb : runBody st (l :: rest) = runBody (bodyStep st l) rest := rfl
    rw [hrb, frameTimes_cons]
    by_cases hskip : jsTrim l = "" ∨ jsStartsWith (jsTrim l) "//"
    · rw [if_pos hskip]
      have hbs : bodyStep st l = st := by unfold bodyStep; rw [if_pos hskip]
      rw [hbs]
      exact ih st
    · rw [if_neg hskip]
      have hbs : bodyStep st l = processLine st (jsTrim l) := by unfold bodyStep; rw [if_neg hskip]
      rw [hbs]
      by_cases hf : jsStartsWith (jsTrim l) "#" = true
      · rw [if_pos hf]
        have hpl := processLine_frame st (jsTrim l) hf
        rcases ih (processLine st (jsTrim l)) with ⟨ih1, ih2⟩
        constructor
        · rw [ih1, hpl.1]
          cases st.startTime <;> simp
        · rw [ih2, hpl.2]
          rfl
      · rw [if_neg hf]
        have hpl := processLine_nonframe st (jsTrim l) hf
        rcases ih (processLine st (jsTrim l)) with ⟨ih1, ih2⟩
        constructor
        · rw [ih1, hpl.1]
        · rw [ih2, hpl.2]

/-- Claim C4 (amended): for every successfully parsed input, `startTime` is
the parsed time of the first frame marker (0 if there is none), and
`endTime` is the maximum of **0 and** all frame-marker times — the running
maximum starts at the initial value 0, so negative frame times never lower
`endTime` below 0 (the claim's "including negative frame times" holds for
`startTime` but not for `endTime`). -/
theorem claim4_start_end_of_frame_markers (s : String) (d : AcmiData)
    (h : parse s = Except.ok d) :
    d.startTime = ((frameTimesOf s).head?).getD (some 0)
    ∧ d.endTime = (frameTimesOf s).foldl jsMax (some 0) := by
  unfold parse at h
  cases hp : processLines initialPState (splitLines s) with
  | error e => rw [hp] at h; exact absurd h (by simp [Except.map])
  | ok st' =>
    rw [hp] at h
    have hd : d = finalizeParse st' := by
      have : Except.ok (finalizeParse st') = Except.ok d := h
      exact (Except.ok.inj this).symm
    rcases processLines_ok _ _ _ hp with ⟨hb, hst⟩ | ⟨rest, hbr, hst⟩
    · subst hd
      subst hst
      unfold frameTimesOf
      rw [hb]
      exact ⟨rfl, rfl⟩
    · subst hd
      subst hst
      unfold frameTimesOf
      rw [hbr]
      rcases runBody_start_end rest initialPState with ⟨h1, h2⟩
      constructor
      · show (match (runBody initialPState rest).startTime with
              | none => some 0
              | some t => t) = _
        rw [h1]
        show (match (frameTimes rest).head? with
              | none => some 0
              | some t => t) = _
        cases (frameTimes rest).head? <;> rfl
      · exact h2

/-- Input for the C4 counterexample: a single frame marker at time −5. -/
def sampleNegFrame : String := "FileType=text/acmi/tacview\n#-5"

/-- Claim C4 (counterexample): with the single (negative) frame marker
`#-5`, the maximum time over all frame markers seen is −5, but the code
returns `endTime = 0` — the running maximum is seeded with 0, so a
negative frame time cannot lower it.  (`startTime = −5` is as claimed.) -/
theorem claim4_counterexample_negative_frame :
    (parse sampleNegFrame).map AcmiData.startTime = Except.ok (some (-5))
    ∧ (parse sampleNegFrame).map AcmiData.endTime = Except.ok (some 0)
    ∧ frameTimesOf sampleNegFrame = [some (-5)]
    ∧ ((some (0 : ℚ) : JSNum) = some (-5) → False) := by
  refine ⟨by with_unfolding_all exact rfl, by with_unfolding_all exact rfl,
          by with_unfolding_all exact rfl, ?_⟩
  intro h
  exact absurd (Option.some.inj h) (by norm_num)

/-! ## Claim C3 -/

/-- The `i`-th `|`-separated sub-field of a `T` value, `""` when absent. -/
def pipeField (v : String) (i : ℕ) : String := (splitOnChar '|' v).getD i ""

/-- Sub-field parsing as the source performs it: empty means `undefined`
(`none`), anything else is `parseFloat`ed (possibly to NaN). -/
def optParsePipe (x : String) : Option JSNum :=
  if x = "" then none else some (parseFloat x)

theorem getD_map_optParse (fields : List String) (i : ℕ) :
    (fields.map (fun x => if x = "" then none else some (parseFloat x))).getD i none
      = optParsePipe (fields.getD i "") := by
  induction fields generalizing i with
  | nil => cases i <;> simp [List.getD, optParsePipe]
  | cons a rest ih =>
    cases i with
    | zero => simp [List.getD, optParsePipe]
    | succ n => simpa [List.getD] using ih n

theorem tParsedValues_getD (v : String) (i : ℕ) :
    (tParsedValues v).getD i none = optParsePipe (pipeField v i) :=
  getD_map_optParse (splitOnChar '|' v) i

/-- Claim C3 (amended): a `T` token appends a new `TimeState` **iff** the
longitude, latitude and altitude sub-fields are all present (non-empty);
otherwise the series is unchanged.  Presence, not numeric validity, is
what the code checks: a present but non-numeric sub-field parses to NaN
and the sample is appended regardless. -/
theorem claim3_T_token_append_iff_present (ct : JSNum) (obj : AcmiObject) (part v : String)
    (h : splitKeyValue part = ("T", v)) :
    (applyPart ct obj part).states =
      (if pipeField v 0 ≠ "" ∧ pipeField v 1 ≠ "" ∧ pipeField v 2 ≠ "" then
        obj.states ++
          [{ time := ct
             longitude := parseFloat (pipeField v 0)
             latitude := parseFloat (pipeField v 1)
             altitude := parseFloat (pipeField v 2)
             roll := optParsePipe (pipeField v 3)
             pitch := optParsePipe (pipeField v 4)
             yaw := optParsePipe (pipeField v 5) }]
      else obj.states) := by
  have hred : applyPart ct obj part = applyKV ct obj ("T", v) := by
    unfold applyPart
    rw [h]
  rw [hred]
  unfold applyKV
  rw [if_neg (by simp), if_pos rfl]
  simp only [tParsedValues_getD]
  by_cases h0 : pipeField v 0 = ""
  · simp [optParsePipe, h0]
  · by_cases h1 : pipeField v 1 = ""
    · simp [optParsePipe, h0, h1]
    · by_cases h2 : pipeField v 2 = ""
      · simp [optParsePipe, h0, h1, h2]
      · simp [optParsePipe, h0, h1, h2]

/-- Witness for claim C3's theorem: the spec's own scenario token
`T=30.0||1000` (missing latitude) leaves the series unchanged. -/
theorem claim3_witness :
    splitKeyValue "T=30.0||1000" = ("T", "30.0||1000")
    ∧ (applyPart (some 2) (emptyObject "W3") "T=30.0||1000").states =
      (if pipeField "30.0||1000" 0 ≠ "" ∧ pipeField "30.0||1000" 1 ≠ ""
          ∧ pipeField "30.0||1000" 2 ≠ "" then
        (emptyObject "W3").states ++
          [{ time := some 2
             longitude := parseFloat (pipeField "30.0||1000" 0)
             latitude := parseFloat (pipeField "30.0||1000" 1)
             altitude := parseFloat (pipeField "30.0||1000" 2)
             roll := optParsePipe (pipeField "30.0||1000" 3)
             pitch := optParsePipe (pipeField "30.0||1000" 4)
             yaw := optParsePipe (pipeField "30.0||1000" 5) }]
      else (emptyObject "W3").states) :=
  ⟨by with_unfolding_all exact rfl,
   claim3_T_token_append_iff_present (some 2) (emptyObject "W3") "T=30.0||1000" "30.0||1000"
     (by with_unfolding_all exact rfl)⟩

/-- Input for the C3 counterexample: a present but non-numeric longitude
sub-field (`abc`). -/
def sampleNaNCoord : String := "FileType=text/acmi/tacview\n#1.0\nA,T=abc|50|1000"

/-- Claim C3 (counterexample): the token `T=abc|50|1000` has a present but
non-numeric longitude sub-field; the claim says no state may be appended,
but the code appends one (series length 1, longitude NaN). -/
theorem claim3_counterexample_nonnumeric_appends :
    (parse sampleNaNCoord).map
        (fun d => (jsMapGet d.objects "A").map (fun o => o.states.length)) =
      Except.ok (some 1)
    ∧ (parse sampleNaNCoord).map
        (fun d => (jsMapGet d.objects "A").map AcmiObject.states) =
      Except.ok (some [{ time := some 1, longitude := none, latitude := some 50,
                         altitude := some 1000, roll := none, pitch := none, yaw := none }])
    ∧ (1 : ℕ) ≠ 0 := by
  refine ⟨by with_unfolding_all exact rfl, by with_unfolding_all exact rfl, by decide⟩

/-! ## Simulation lemmas -/

theorem interpolateActive_isActive (m : MathOps) (enu : Mat4) (sc : Scratch)
    (obj : AcmiObject) (s1 s2 : TimeState) (t : JSNum) :
    (interpolateActive m enu sc obj s1 s2 t).1.isActive = true := rfl

theorem isActiveAt_iff (obj : AcmiObject) (t : JSNum) :
    isActiveAt obj t = true ↔
      (obj.states ≠ [] ∧ jsGe t ((obj.states.headD dummyState).time) = true ∧
        (obj.removedAtTime = none ∨ ∃ r, obj.removedAtTime = some r ∧ jsLt t r = true)) := by
  unfold isActiveAt
  cases hst : obj.states with
  | nil => simp
  | cons s0 rest =>
    cases hrem : obj.removedAtTime with
    | none => simp [List.headD, Bool.and_eq_true]
    | some r => simp [List.headD, Bool.and_eq_true]

theorem getInterpolatedState_isActive (m : MathOps) (enu : Mat4) (sc : Scratch)
    (obj : AcmiObject) (t : JSNum) :
    (getInterpolatedState m enu sc obj t).1.isActive = isActiveAt obj t := by
  unfold getInterpolatedState
  cases hact : isActiveAt obj t
  · simp [defaultStateFor]
  · simp [interpolateActive_isActive]

theorem getInterpolatedState_inactive (m : MathOps) (enu : Mat4) (sc : Scratch)
    (obj : AcmiObject) (t : JSNum) (h : isActiveAt obj t = false) :
    getInterpolatedState m enu sc obj t = (defaultStateFor obj.id, sc) := by
  unfold getInterpolatedState
  rw [h]
  simp

/-! ## Claim C5 -/

/-- Claim C5: the returned pose is active exactly when the series is
non-empty, `t` is at or after the first sample's time, and the object has
not been removed by `t`; whenever inactive, the returned pose is the fixed
`defaultState` literal — origin position, identity quaternion, zero
velocity/speed/verticalSpeed/heading, and the fixed neutral color
`"gray"`, which is a constant and not read from the object's `Color`
property. -/
theorem claim5_isActive_iff_and_inactive_pose (m : MathOps) (enu : Mat4) (sc : Scratch)
    (obj : AcmiObject) (t : JSNum) :
    ((getInterpolatedState m enu sc obj t).1.isActive = true ↔
      (obj.states ≠ [] ∧ jsGe t ((obj.states.headD dummyState).time) = true ∧
        (obj.removedAtTime = none ∨ ∃ r, obj.removedAtTime = some r ∧ jsLt t r = true)))
    ∧ ((getInterpolatedState m enu sc obj t).1.isActive = false →
        (getInterpolatedState m enu sc obj t).1 = defaultStateFor obj.id) := by
  constructor
  · rw [getInterpolatedState_isActive]
    exact isActiveAt_iff obj t
  · intro hfalse
    rw [getInterpolatedState_isActive] at hfalse
    rw [getInterpolatedState_inactive m enu sc obj t hfalse]

/-- A concrete instantiation of the abstract transcendental operations,
used only to evaluate theorems at concrete inputs. -/
def mathZero : MathOps :=
  { sin := fun _ => 0, cos := fun _ => 0, sqrt := fun _ => 0
    asin := fun _ => 0, atan2 := fun _ _ => 0, pi := 0 }

/-- A concrete sample used by several concrete evaluations. -/
def sOne : TimeState :=
  { time := some 1, longitude := some 30, latitude := some 50, altitude := some 1000
    roll := none, pitch := none, yaw := none }

/-- A concrete object with a single sample at time 1. -/
def objOne : AcmiObject :=
  { id := "C", properties := [], states := [sOne], removedAtTime := none }

/-- A concrete object removed at time 5. -/
def objRemoved : AcmiObject :=
  { id := "R", properties := [("Color", "Red")], states := [sOne], removedAtTime := some (some 5) }

/-- Witness for claim C5's theorem at a concrete removed object and a time
past removal: the pose is the fixed inactive one. -/
theorem claim5_witness :
    (getInterpolatedState mathZero mat4Identity scratch0 objRemoved (some 7)).1.isActive = false
    ∧ (getInterpolatedState mathZero mat4Identity scratch0 objRemoved (some 7)).1
        = defaultStateFor "R" := by
  have h := claim5_isActive_iff_and_inactive_pose mathZero mat4Identity scratch0 objRemoved (some 7)
  have hfalse : (getInterpolatedState mathZero mat4Identity scratch0 objRemoved (some 7)).1.isActive = false := by
    with_unfolding_all exact rfl
  exact ⟨hfalse, h.2 hfalse⟩

/-! ## Claim C8 -/

/-- Claim C8: `tick` is a no-op unless playing and loaded; otherwise it
sets `time` to `time + delta * playbackSpeed` clamped from above by
`duration` (`Math.min`, no lower clamp, so a negative product can push
time below 0), pauses exactly when the new time is at or past `duration`,
changes nothing else, and — for finite values — the resulting time never
exceeds `duration`. -/
theorem claim8_tick_semantics (st : SimState) (dt : JSNum) :
    (st.isPlaying = false ∨ st.isDataLoaded = false → tick st dt = st)
    ∧ (st.isPlaying = true → st.isDataLoaded = true →
        ((tick st dt).time = jsMin (jsAdd st.time (jsMul dt st.playbackSpeed)) st.duration
         ∧ (tick st dt).isPlaying = !(jsGe (tick st dt).time st.duration)
         ∧ (tick st dt).playbackSpeed = st.playbackSpeed
         ∧ (tick st dt).duration = st.duration
         ∧ (tick st dt).isDataLoaded = st.isDataLoaded
         ∧ (tick st dt).acmiData = st.acmiData
         ∧ (tick st dt).originEcef = st.originEcef
         ∧ (tick st dt).enuMatrix = st.enuMatrix))
    ∧ (∀ τ δ v D : ℚ, st.time = some τ → dt = some δ → st.playbackSpeed = some v →
        st.duration = some D → st.isPlaying = true → st.isDataLoaded = true →
        (tick st dt).time = some (min (τ + δ * v) D) ∧ min (τ + δ * v) D ≤ D) := by
  refine ⟨?_, ?_, ?_⟩
  · rintro (h | h) <;> simp [tick, h]
  · intro hp hl
    unfold tick
    rw [hp, hl]
    simp only [Bool.not_true, Bool.or_self, Bool.false_eq_true, if_false]
    refine ⟨by split <;> rfl, by split <;> simp_all [pause], by split <;> rfl,
            by split <;> rfl, by split <;> rfl, by split <;> rfl,
            by split <;> rfl, by split <;> rfl⟩
  · intro τ δ v D ht hdt hv hD hp hl
    unfold tick
    rw [hp, hl]
    simp only [Bool.not_true, Bool.or_self, Bool.false_eq_true, if_false]
    rw [ht, hdt, hv, hD]
    have hmin : jsMin (jsAdd (some τ) (jsMul (some δ) (some v))) (some D)
        = some (min (τ + δ * v) D) := rfl
    rw [hmin]
    constructor
    · cases hge : jsGe (some (min (τ + δ * v) D)) (some D)
      · rw [if_neg Bool.false_ne_true]
      · rw [if_pos rfl]
        exact rfl
    · exact min_le_right _ _

/-- A concrete playing, loaded engine state with reverse playback. -/
def simPlayingW : SimState :=
  { time := some 0, isPlaying := true, playbackSpeed := some (-2), duration := some 10
    isDataLoaded := true, acmiData := none, originEcef := none, enuMatrix := none }

/-- A concrete loaded (paused) engine state with duration 10. -/
def simLoadedW : SimState :=
  { time := some 0, isPlaying := false, playbackSpeed := some 1, duration := some 10
    isDataLoaded := true, acmiData := none, originEcef := none, enuMatrix := none }

/-- Witness for claim C8's theorem: playing and loaded with speed −2 over
1 second of wall time from time 0 pushes time to −2, below 0 but not above
the duration 10, and playback continues. -/
theorem claim8_witness :
    (tick simPlayingW (some 1)).time = some (min ((0 : ℚ) + 1 * (-2)) 10)
    ∧ min ((0 : ℚ) + 1 * (-2)) 10 ≤ 10 :=
  (claim8_tick_semantics simPlayingW (some 1)).2.2 0 1 (-2) 10 rfl rfl rfl rfl rfl rfl

/-! ## Claim C9 -/

/-- Claim C9: with no dataset loaded, `tick`, `seek` and `play` leave the
state unchanged (and raise nothing — they are total functions); with a
dataset loaded, `seek t` replaces `time` by `max(0, min(t, duration))` and
changes no other field, and for finite values the result lies in
`[0, duration]` and equals `t` when `t` already lies there. -/
theorem claim9_unloaded_noops_and_seek_clamps (st : SimState) :
    (st.isDataLoaded = false →
      (∀ dt, tick st dt = st) ∧ (∀ t2, seek st t2 = st) ∧ play st = st)
    ∧ (st.isDataLoaded = true → ∀ t2,
        seek st t2 = { st with time := jsMax (some 0) (jsMin t2 st.duration) }
        ∧ (∀ τ D : ℚ, t2 = some τ → st.duration = some D → 0 ≤ D →
            (seek st t2).time = some (max 0 (min τ D))
            ∧ 0 ≤ max 0 (min τ D) ∧ max 0 (min τ D) ≤ D
            ∧ (0 ≤ τ → τ ≤ D → max 0 (min τ D) = τ))) := by
  constructor
  · intro h
    refine ⟨fun dt => ?_, fun t2 => ?_, ?_⟩
    · simp [tick, h]
    · simp [seek, h]
    · simp [play, h]
  · intro h t2
    constructor
    · simp [seek, h]
    · intro τ D ht hD hDpos
      refine ⟨?_, le_max_left _ _, ?_, ?_⟩
      · simp [seek, h, ht, hD]
        rfl
      · exact max_le hDpos (min_le_right _ _)
      · intro h0 h1
        rw [min_eq_left h1, max_eq_right h0]

/-- Witness for claim C9's theorem: on the unloaded initial state all three
operations are identities, and on a loaded state a seek to 25 with
duration 10 clamps to 10. -/
theorem claim9_witness :
    tick initialSimState (some 3) = initialSimState
    ∧ seek initialSimState (some 3) = initialSimState
    ∧ play initialSimState = initialSimState
    ∧ (seek simLoadedW (some 25)).time = some (max 0 (min (25 : ℚ) 10)) := by
  have h := claim9_unloaded_noops_and_seek_clamps initialSimState
  have h2 := claim9_unloaded_noops_and_seek_clamps simLoadedW
  refine ⟨(h.1 rfl).1 (some 3), (h.1 rfl).2.1 (some 3), (h.1 rfl).2.2, ?_⟩
  exact (((h2.2 rfl (some 25)).2) 25 10 rfl rfl (by norm_num)).1

/-! ## Claim C7 -/

/-- The pose value computed for one object does not depend on the incoming
scratch state: every scratch temporary is fully overwritten before being
read (write-before-read), so no hidden mutable interpolation state can
leak into the result. -/
theorem getInterpolatedState_fst_scratch (m : MathOps) (enu : Mat4) (obj : AcmiObject)
    (t : JSNum) (sc1 sc2 : Scratch) :
    (getInterpolatedState m enu sc1 obj t).1 = (getInterpolatedState m enu sc2 obj t).1 := by
  unfold getInterpolatedState
  cases hact : isActiveAt obj t
  · simp
  · simp only [if_pos rfl]
    rfl

theorem posesFold_fst_scratch (m : MathOps) (enu : Mat4) (t : JSNum)
    (objs : List (String × AcmiObject))
    (acc1 acc2 : List (String × InterpolatedState)) (sc1 sc2 : Scratch)
    (hacc : acc1 = acc2) :
    (objs.foldl (posesFold m enu t) (acc1, sc1)).1
      = (objs.foldl (posesFold m enu t) (acc2, sc2)).1 := by
  induction objs generalizing acc1 acc2 sc1 sc2 with
  | nil => simpa using hacc
  | cons p rest ih =>
    simp only [List.foldl_cons]
    exact ih _ _ _ _
      (by rw [hacc, getInterpolatedState_fst_scratch m enu p.2 t sc1 sc2])

/-- Claim C7: the computed pose map is a pure function of the engine state
(dataset, cached transform, time): it does not depend on the threaded
scratch temporaries, so two consecutive evaluations — the second starting
from whatever scratch the first left behind — return equal maps, and the
evaluation returns no modified engine state at all (its type is the pose
map plus the scratch only). -/
theorem claim7_interpolatedStates_pure (m : MathOps) (st : SimState) (sc1 sc2 : Scratch) :
    (interpolatedStates m st sc1).1 = (interpolatedStates m st sc2).1
    ∧ (interpolatedStates m st (interpolatedStates m st sc1).2).1
        = (interpolatedStates m st sc1).1 := by
  have key : ∀ s1 s2 : Scratch,
      (interpolatedStates m st s1).1 = (interpolatedStates m st s2).1 := by
    intro s1 s2
    unfold interpolatedStates
    cases hd : st.acmiData with
    | none => rfl
    | some data =>
      exact posesFold_fst_scratch m (st.enuMatrix.getD mat4Identity) st.time
        data.objects [] [] s1 s2 rfl
  exact ⟨key sc1 sc2, key _ sc1⟩

/-! ## Bracketing machinery (claims C2 and C10) -/

/-- The data-model invariant of §3: within one object's series the sample
times are non-decreasing (and hence finite, wherever two of them are
comparable). -/
def timesSorted : List TimeState → Bool
  | [] => true
  | [_] => true
  | a :: b :: rest => jsLe a.time b.time && timesSorted (b :: rest)

theorem jsLe_some (x y : JSNum) (h : jsLe x y = true) :
    ∃ p q : ℚ, x = some p ∧ y = some q ∧ p ≤ q := by
  cases x with
  | none => exact absurd h (by simp [jsLe])
  | some p =>
    cases y with
    | none => exact absurd h (by simp [jsLe])
    | some q => exact ⟨p, q, rfl, rfl, by simpa [jsLe] using h⟩

theorem jsLt_some (x y : JSNum) (h : jsLt x y = true) :
    ∃ p q : ℚ, x = some p ∧ y = some q ∧ p < q := by
  cases x with
  | none => exact absurd h (by simp [jsLt])
  | some p =>
    cases y with
    | none => exact absurd h (by simp [jsLt])
    | some q => exact ⟨p, q, rfl, rfl, by simpa [jsLt] using h⟩

theorem jsGt_some (x y : JSNum) (h : jsGt x y = true) :
    ∃ p q : ℚ, x = some p ∧ y = some q ∧ q < p := by
  rcases jsLt_some y x h with ⟨q, p, hy, hx, hlt⟩
  exact ⟨p, q, hx, hy, hlt⟩

theorem jsGe_some (x y : JSNum) (h : jsGe x y = true) :
    ∃ p q : ℚ, x = some p ∧ y = some q ∧ q ≤ p := by
  rcases jsLe_some y x h with ⟨q, p, hy, hx, hle⟩
  exact ⟨p, q, hx, hy, hle⟩

theorem timesSorted_cons2 (a b : TimeState) (rest : List TimeState) :
    timesSorted (a :: b :: rest) = (jsLe a.time b.time && timesSorted (b :: rest)) := rfl

theorem timesSorted_tail (a : TimeState) (rest : List TimeState)
    (h : timesSorted (a :: rest) = true) : timesSorted rest = true := by
  cases rest with
  | nil => rfl
  | cons b r =>
    rw [timesSorted_cons2] at h
    simp only [Bool.and_eq_true] at h
    exact h.2

theorem timesSorted_head_le (a b : TimeState) (rest : List TimeState)
    (h : timesSorted (a :: b :: rest) = true) : jsLe a.time b.time = true := by
  rw [timesSorted_cons2] at h
  simp only [Bool.and_eq_true] at h
  exact h.1

theorem timesSorted_getD_le (l : List TimeState) :
    timesSorted l = true → ∀ j : ℕ, j + 1 < l.length →
    jsLe (l.getD j dummyState).time (l.getD (j + 1) dummyState).time = true := by
  induction l with
  | nil =>
    intro _ j hj
    simp at hj
  | cons a rest ih =>
    intro h j hj
    cases rest with
    | nil => simp at hj
    | cons b r =>
      cases j with
      | zero => simpa [List.getD] using timesSorted_head_le a b r h
      | succ n =>
        rw [List.getD_cons_succ, List.getD_cons_succ]
        exact ih (timesSorted_tail a _ h) n (by simpa using hj)

theorem timesSorted_le_last (l : List TimeState) :
    timesSorted l = true → ∀ slast : TimeState, l.getLast? = some slast →
    ∀ L : ℚ, slast.time = some L →
    ∀ s ∈ l, ∃ q : ℚ, s.time = some q ∧ q ≤ L := by
  induction l with
  | nil =>
    intro _ slast hlast
    simp at hlast
  | cons a rest ih =>
    intro h slast hlast L hL s hs
    cases rest with
    | nil =>
      have ha : a = slast := by simpa using hlast
      have hsa : s = a := by simpa using hs
      subst ha
      subst hsa
      exact ⟨L, hL, le_refl L⟩
    | cons b r =>
      have hlast2 : (b :: r).getLast? = some slast := by
        simpa [List.getLast?_cons_cons] using hlast
      have hab := timesSorted_head_le a b r h
      rcases jsLe_some _ _ hab with ⟨p, q, hp, hqb, hpq⟩
      rcases List.mem_cons.mp hs with heq | hmem
      · subst heq
        rcases ih (timesSorted_tail _ _ h) slast hlast2 L hL b (List.mem_cons_self b r)
          with ⟨qb, hqb2, hqbL⟩
        have : q = qb := Option.some.inj (hqb ▸ hqb2)
        exact ⟨p, hp, le_trans hpq (this ▸ hqbL)⟩
      · exact ih (timesSorted_tail a _ h) slast hlast2 L hL s hmem

theorem getD_mem (l : List TimeState) (n : ℕ) (h : n < l.length) :
    l.getD n dummyState ∈ l := by
  induction l generalizing n with
  | nil => simp at h
  | cons a rest ih =>
    cases n with
    | zero => simp [List.getD]
    | succ k =>
      rw [List.getD_cons_succ]
      exact List.mem_cons_of_mem a (ih k (by simpa using h))

theorem getD_last (l : List TimeState) (slast : TimeState) (h : l.getLast? = some slast) :
    l.getD (l.length - 1) dummyState = slast := by
  induction l with
  | nil => simp at h
  | cons a rest ih =>
    cases rest with
    | nil =>
      have : a = slast := by simpa using h
      simpa [List.getD] using this
    | cons b r =>
      have h2 : (b :: r).getLast? = some slast := by
        simpa [List.getLast?_cons_cons] using h
      have hlen : (a :: b :: r).length - 1 = ((b :: r).length - 1) + 1 := by
        simp
      rw [hlen, List.getD_cons_succ]
      exact ih h2

theorem findIdxGt_le_length (t : JSNum) (l : List TimeState) : findIdxGt t l ≤ l.length := by
  induction l with
  | nil => simp [findIdxGt]
  | cons s rest ih =>
    unfold findIdxGt
    split
    · simp
    · simpa using ih

theorem findIdxGt_hit (t : JSNum) (l : List TimeState) (h : findIdxGt t l < l.length) :
    jsGt (l.getD (findIdxGt t l) dummyState).time t = true := by
  induction l with
  | nil => simp [findIdxGt] at h
  | cons s rest ih =>
    by_cases hs : jsGt s.time t = true
    · have heq : findIdxGt t (s :: rest) = 0 := by
        simp only [findIdxGt]
        rw [if_pos hs]
      rw [heq]
      simpa [List.getD] using hs
    · have heq : findIdxGt t (s :: rest) = findIdxGt t rest + 1 := by
        simp only [findIdxGt]
        rw [if_neg hs]
      rw [heq] at h ⊢
      rw [List.getD_cons_succ]
      exact ih (by simpa using h)

theorem findIdxGt_before (t : JSNum) (l : List TimeState) :
    ∀ j : ℕ, j < findIdxGt t l → jsGt (l.getD j dummyState).time t = false := by
  induction l with
  | nil =>
    intro j hj
    simp [findIdxGt] at hj
  | cons s rest ih =>
    intro j hj
    by_cases hs : jsGt s.time t = true
    · have heq : findIdxGt t (s :: rest) = 0 := by
        simp only [findIdxGt]
        rw [if_pos hs]
      rw [heq] at hj
      omega
    · have heq : findIdxGt t (s :: rest) = findIdxGt t rest + 1 := by
        simp only [findIdxGt]
        rw [if_neg hs]
      rw [heq] at hj
      cases j with
      | zero => simpa [List.getD] using Bool.eq_false_iff.mpr hs
      | succ n =>
        rw [List.getD_cons_succ]
        exact ih n (by omega)

theorem findIdxGt_eq_length (t : JSNum) (l : List TimeState)
    (h : ∀ s ∈ l, jsGt s.time t = false) : findIdxGt t l = l.length := by
  induction l with
  | nil => rfl
  | cons a rest ih =>
    unfold findIdxGt
    rw [if_neg (by rw [h a (List.mem_cons_self a rest)]; exact Bool.false_ne_true)]
    rw [ih (fun s hs => h s (List.mem_cons_of_mem a hs))]
    rfl

theorem timesSorted_numeric (l : List TimeState) :
    timesSorted l = true → (∃ q0 : ℚ, (l.headD dummyState).time = some q0) →
    ∀ s ∈ l, ∃ q : ℚ, s.time = some q := by
  induction l with
  | nil =>
    intro _ _ s hs
    simp at hs
  | cons a rest ih =>
    intro h hq s hs
    rcases hq with ⟨q0, hq0⟩
    have hq0a : a.time = some q0 := by simpa [List.headD] using hq0
    rcases List.mem_cons.mp hs with heq | hmem
    · subst heq
      exact ⟨q0, hq0a⟩
    · cases rest with
      | nil => simp at hmem
      | cons b r =>
        have hab := timesSorted_head_le a b r h
        rcases jsLe_some _ _ hab with ⟨p, q, hp, hqq, _⟩
        exact ih (timesSorted_tail a _ h) ⟨q, by simpa [List.headD] using hqq⟩ s hmem

/-- The earlier bracketing sample of `getInterpolatedState`:
`states[Math.max(0, i - 1)]` (ℕ subtraction is already clamped at 0). -/
def bracket1 (obj : AcmiObject) (t : JSNum) : TimeState :=
  obj.states.getD (findIdxGt t obj.states - 1) dummyState

/-- The later bracketing sample: `states[Math.min(length - 1, i)]`. -/
def bracket2 (obj : AcmiObject) (t : JSNum) : TimeState :=
  obj.states.getD (min (obj.states.length - 1) (findIdxGt t obj.states)) dummyState

/-- The interpolation fraction `t` of `getInterpolatedState`:
1 when the bracket times coincide, else `(time - s1.time) / timeDelta`. -/
def interpFrac (obj : AcmiObject) (t : JSNum) : JSNum :=
  if jsEq (jsSub (bracket2 obj t).time (bracket1 obj t).time) (some 0) then some 1
  else jsDiv (jsSub t (bracket1 obj t).time) (jsSub (bracket2 obj t).time (bracket1 obj t).time)

theorem getInterpolatedState_active (m : MathOps) (enu : Mat4) (sc : Scratch)
    (obj : AcmiObject) (t : JSNum) (h : isActiveAt obj t = true) :
    getInterpolatedState m enu sc obj t
      = interpolateActive m enu sc obj (bracket1 obj t) (bracket2 obj t) t := by
  unfold getInterpolatedState bracket1 bracket2
  rw [if_pos h]

theorem isActiveAt_head_ge (obj : AcmiObject) (t : JSNum) (h : isActiveAt obj t = true) :
    obj.states ≠ [] ∧ jsGe t ((obj.states.headD dummyState).time) = true :=
  ⟨((isActiveAt_iff obj t).mp h).1, ((isActiveAt_iff obj t).mp h).2.1⟩

theorem bracket_facts (obj : AcmiObject) (t : JSNum)
    (hs : timesSorted obj.states = true) (hact : isActiveAt obj t = true) :
    ∃ τ a b : ℚ, t = some τ ∧ (bracket1 obj t).time = some a ∧ (bracket2 obj t).time = some b
      ∧ a ≤ b ∧ a ≤ τ ∧ (a < b → τ < b) := by
  rcases isActiveAt_head_ge obj t hact with ⟨hne, hge⟩
  rcases jsGe_some _ _ hge with ⟨τ, q0, ht, hq0, hq0τ⟩
  have hnum : ∀ s ∈ obj.states, ∃ q : ℚ, s.time = some q :=
    timesSorted_numeric obj.states hs ⟨q0, hq0⟩
  have hlen : 0 < obj.states.length := List.length_pos.mpr hne
  have hile := findIdxGt_le_length t obj.states
  by_cases hi0 : findIdxGt t obj.states = 0
  · -- both brackets resolve to the first sample
    have hb1 : bracket1 obj t = obj.states.getD 0 dummyState := by
      unfold bracket1
      rw [hi0]
    have hb2 : bracket2 obj t = obj.states.getD 0 dummyState := by
      unfold bracket2
      rw [hi0, Nat.min_zero]
    have hhead : obj.states.getD 0 dummyState = obj.states.headD dummyState := by
      cases obj.states with
      | nil => rfl
      | cons x xs => rfl
    refine ⟨τ, q0, q0, ht, ?_, ?_, le_refl q0, hq0τ, fun hcon => absurd hcon (lt_irrefl q0)⟩
    · rw [hb1, hhead]
      exact hq0
    · rw [hb2, hhead]
      exact hq0
  · have hipos : 0 < findIdxGt t obj.states := Nat.pos_of_ne_zero hi0
    by_cases hin : findIdxGt t obj.states < obj.states.length
    · -- interior bracket: s1 = states[i-1], s2 = states[i]
      have hb2 : bracket2 obj t = obj.states.getD (findIdxGt t obj.states) dummyState := by
        unfold bracket2
        rw [min_eq_right (by omega)]
      rcases hnum _ (getD_mem obj.states (findIdxGt t obj.states - 1) (by omega)) with ⟨a, ha⟩
      rcases hnum _ (getD_mem obj.states (findIdxGt t obj.states) hin) with ⟨b, hb⟩
      have hnotgt := findIdxGt_before t obj.states (findIdxGt t obj.states - 1) (by omega)
      have hhit := findIdxGt_hit t obj.states hin
      have hab : jsLe (obj.states.getD (findIdxGt t obj.states - 1) dummyState).time
          (obj.states.getD (findIdxGt t obj.states - 1 + 1) dummyState).time = true :=
        timesSorted_getD_le obj.states hs (findIdxGt t obj.states - 1) (by omega)
      rw [show findIdxGt t obj.states - 1 + 1 = findIdxGt t obj.states from by omega] at hab
      rcases jsLe_some _ _ hab with ⟨a2, b2, ha2, hb2t, hab2⟩
      have haa : a = a2 := Option.some.inj (ha ▸ ha2)
      have hbb : b = b2 := Option.some.inj (hb ▸ hb2t)
      have haτ : a ≤ τ := by
        rw [ha, ht] at hnotgt
        simpa [jsGt, jsLt] using hnotgt
      have hτb : τ < b := by
        rw [hb, ht] at hhit
        simpa [jsGt, jsLt] using hhit
      exact ⟨τ, a, b, ht, ha, by rw [hb2]; exact hb,
        by rw [haa, hbb]; exact hab2, haτ, fun _ => hτb⟩
    · -- i = length: both brackets resolve to the last sample
      have hieq : findIdxGt t obj.states = obj.states.length := by omega
      have hb1 : bracket1 obj t = obj.states.getD (obj.states.length - 1) dummyState := by
        unfold bracket1
        rw [hieq]
      have hb2 : bracket2 obj t = obj.states.getD (obj.states.length - 1) dummyState := by
        unfold bracket2
        rw [hieq, min_eq_left (Nat.sub_le _ _)]
      rcases hnum _ (getD_mem obj.states (obj.states.length - 1) (by omega)) with ⟨a, ha⟩
      have hnotgt := findIdxGt_before t obj.states (obj.states.length - 1) (by omega)
      have haτ : a ≤ τ := by
        rw [ha, ht] at hnotgt
        simpa [jsGt, jsLt] using hnotgt
      refine ⟨τ, a, a, ht, ?_, ?_, le_refl a, haτ, fun hcon => absurd hcon (lt_irrefl a)⟩
      · rw [hb1]
        exact ha
      · rw [hb2]
        exact ha

theorem interpFrac_unit (obj : AcmiObject) (t : JSNum)
    (hs : timesSorted obj.states = true) (hact : isActiveAt obj t = true) :
    ∃ f : ℚ, interpFrac obj t = some f ∧ 0 ≤ f ∧ f ≤ 1 := by
  rcases bracket_facts obj t hs hact with ⟨τ, a, b, ht, ha, hb, hab, haτ, hτb⟩
  subst ht
  unfold interpFrac
  rw [ha, hb]
  by_cases hba : b - a = 0
  · rw [if_pos (by simp [jsSub, jsEq, hba])]
    exact ⟨1, rfl, by norm_num, le_refl 1⟩
  · rw [if_neg (by simp [jsSub, jsEq, hba])]
    have hlt : a < b := lt_of_le_of_ne hab (fun hcontra => hba (by rw [hcontra]; ring))
    have hτltb := hτb hlt
    refine ⟨(τ - a) / (b - a), by simp [jsSub, jsDiv, hba], ?_, ?_⟩
    · apply div_nonneg <;> linarith
    · rw [div_le_one (by linarith)]
      linarith

theorem lerp_between (a b f : ℚ) (h0 : 0 ≤ f) (h1 : f ≤ 1) :
    min a b ≤ a + (b - a) * f ∧ a + (b - a) * f ≤ max a b := by
  rcases le_total a b with hab | hba
  · rw [min_eq_left hab, max_eq_right hab]
    constructor <;> nlinarith
  · rw [min_eq_right hba, max_eq_left hba]
    constructor <;> nlinarith

/-! ## Claim C2 -/

/-- The pose of a sample held with both brackets coinciding on it, as the
engine computes it (coincident brackets force `timeDelta = 0`, fraction 1,
zero kinematics). -/
def heldState (m : MathOps) (enu : Mat4) (sc : Scratch) (obj : AcmiObject)
    (s : TimeState) : InterpolatedState :=
  (interpolateActive m enu sc obj s s s.time).1

theorem interpolateActive_coincident (m : MathOps) (enu : Mat4) (sc : Scratch)
    (obj : AcmiObject) (s : TimeState) (t1 t2 : JSNum) (L : ℚ) (hq : s.time = some L) :
    (interpolateActive m enu sc obj s s t1).1 = (interpolateActive m enu sc obj s s t2).1 := by
  unfold interpolateActive
  rw [hq]
  have hzero : jsEq (jsSub (some L) (some L)) (some 0) = true := by
    simp [jsSub, jsEq]
  simp only [hzero, if_pos, if_true]

theorem interpolateActive_coincident_kin (m : MathOps) (enu : Mat4) (sc : Scratch)
    (obj : AcmiObject) (s : TimeState) (t : JSNum) (L : ℚ) (hq : s.time = some L) :
    (interpolateActive m enu sc obj s s t).1.speed = some 0
    ∧ (interpolateActive m enu sc obj s s t).1.verticalSpeed = some 0 := by
  unfold interpolateActive
  rw [hq]
  have hnotgt : jsGt (jsSub (some L) (some L)) (some 0) = false := by
    simp [jsSub, jsGt, jsLt]
  constructor <;> simp only [hnotgt, Bool.false_eq_true, if_false]

/-- Claim C2 (amended): for a finite query time strictly before the first
sample's time the object is **inactive** and the fixed inactive pose (which
also has zero speed and verticalSpeed) is returned, not a held
first-sample pose; strictly after the last sample's time, while the object
is still active, both brackets resolve to the last sample and the pose is
the held last-sample pose with zero speed and verticalSpeed. -/
theorem claim2_boundary_poses (m : MathOps) (enu : Mat4) (sc : Scratch)
    (obj : AcmiObject) (t : JSNum) (hs : timesSorted obj.states = true) :
    (jsLt t ((obj.states.headD dummyState).time) = true →
      (getInterpolatedState m enu sc obj t).1 = defaultStateFor obj.id)
    ∧ (∀ slast : TimeState, obj.states.getLast? = some slast →
        jsGt t slast.time = true → isActiveAt obj t = true →
        ((getInterpolatedState m enu sc obj t).1 = heldState m enu sc obj slast
         ∧ (getInterpolatedState m enu sc obj t).1.speed = some 0
         ∧ (getInterpolatedState m enu sc obj t).1.verticalSpeed = some 0)) := by
  constructor
  · intro hlt
    rcases jsLt_some _ _ hlt with ⟨τ, q0, ht, hq0, hτq0⟩
    have hin : isActiveAt obj t = false := by
      unfold isActiveAt
      cases hst : obj.states with
      | nil => rfl
      | cons s0 rest =>
        have hq0s : s0.time = some q0 := by
          rw [hst] at hq0
          simpa [List.headD] using hq0
        have hgef : jsGe t s0.time = false := by
          rw [ht, hq0s]
          simp [jsGe, jsLe]
          linarith
        simp [hgef]
    rw [getInterpolatedState_inactive m enu sc obj t hin]
  · intro slast hlast hgt hact
    rcases jsGt_some t slast.time hgt with ⟨τ, L, ht, hL, hLτ⟩
    have hall : ∀ s ∈ obj.states, ∃ q : ℚ, s.time = some q ∧ q ≤ L :=
      timesSorted_le_last obj.states hs slast hlast L hL
    have hnotgt : ∀ s ∈ obj.states, jsGt s.time t = false := by
      intro s hsmem
      rcases hall s hsmem with ⟨q, hq, hqL⟩
      rw [hq, ht]
      simp [jsGt, jsLt]
      linarith
    have hidx : findIdxGt t obj.states = obj.states.length :=
      findIdxGt_eq_length t obj.states hnotgt
    have hbr1 : bracket1 obj t = slast := by
      unfold bracket1
      rw [hidx]
      exact getD_last obj.states slast hlast
    have hbr2 : bracket2 obj t = slast := by
      unfold bracket2
      rw [hidx, min_eq_left (Nat.sub_le _ _)]
      exact getD_last obj.states slast hlast
    rw [getInterpolatedState_active m enu sc obj t hact, hbr1, hbr2]
    exact ⟨interpolateActive_coincident m enu sc obj slast t slast.time L hL,
           (interpolateActive_coincident_kin m enu sc obj slast t L hL).1,
           (interpolateActive_coincident_kin m enu sc obj slast t L hL).2⟩

/-- A concrete object with two samples, used by the C2 and C10 witnesses. -/
def objTwo : AcmiObject :=
  { id := "D", properties := [("Color", "Blue")], removedAtTime := none
    states :=
      [{ time := some 1, longitude := some 30, latitude := some 50, altitude := some 1000
         roll := none, pitch := none, yaw := none },
       { time := some 3, longitude := some 31, latitude := some 51, altitude := some 2000
         roll := none, pitch := none, yaw := none }] }

/-- The second sample of `objTwo`. -/
def sTwoLast : TimeState :=
  { time := some 3, longitude := some 31, latitude := some 51, altitude := some 2000
    roll := none, pitch := none, yaw := none }

/-- Witness for claim C2's theorem: at time 5, past `objTwo`'s last sample
at time 3, the pose is the held last-sample pose with zero kinematics. -/
theorem claim2_witness :
    timesSorted objTwo.states = true
    ∧ ((getInterpolatedState mathZero mat4Identity scratch0 objTwo (some 5)).1
        = heldState mathZero mat4Identity scratch0 objTwo sTwoLast
       ∧ (getInterpolatedState mathZero mat4Identity scratch0 objTwo (some 5)).1.speed = some 0
       ∧ (getInterpolatedState mathZero mat4Identity scratch0 objTwo (some 5)).1.verticalSpeed = some 0) :=
  ⟨by with_unfolding_all exact rfl,
   (claim2_boundary_poses mathZero mat4Identity scratch0 objTwo (some 5)
       (by with_unfolding_all exact rfl)).2
     sTwoLast (by with_unfolding_all exact rfl) (by with_unfolding_all exact rfl)
     (by with_unfolding_all exact rfl)⟩

/-- Claim C2 (counterexample): for `objOne` (single sample at time 1,
pose away from the origin) and query time 0 — strictly before the first
sample — the engine does **not** return the held pose of the nearest
endpoint sample: it returns the fixed inactive pose (`isActive = false`),
while the held endpoint pose has `isActive = true`. -/
theorem claim2_counterexample_before_first :
    (getInterpolatedState mathZero mat4Identity scratch0 objOne (some 0)).1
      ≠ heldState mathZero mat4Identity scratch0 objOne sOne := by
  have h1 : (getInterpolatedState mathZero mat4Identity scratch0 objOne (some 0)).1.isActive
      = false := by
    with_unfolding_all exact rfl
  have h2 : (heldState mathZero mat4Identity scratch0 objOne sOne).isActive = true := by
    with_unfolding_all exact rfl
  intro h
  rw [h, h2] at h1
  exact Bool.noConfusion h1

/-! ## Claim C10 -/

/-- Claim C10: for an object whose sample times are non-decreasing and a
query time at which it is active, the engine uses the bracketing samples
`bracket1`/`bracket2`, the interpolation fraction is a finite value in
`[0, 1]`, and each linearly interpolated coordinate (longitude, latitude,
altitude, via the code's `lerpJS`) lies between the corresponding values
of the two bracketing samples whenever those are finite. -/
theorem claim10_fraction_unit_and_convexity (m : MathOps) (enu : Mat4) (sc : Scratch)
    (obj : AcmiObject) (t : JSNum)
    (hs : timesSorted obj.states = true) (hact : isActiveAt obj t = true) :
    getInterpolatedState m enu sc obj t
      = interpolateActive m enu sc obj (bracket1 obj t) (bracket2 obj t) t
    ∧ ∃ f : ℚ, interpFrac obj t = some f ∧ 0 ≤ f ∧ f ≤ 1
      ∧ (∀ a b : ℚ, (bracket1 obj t).longitude = some a →
          (bracket2 obj t).longitude = some b →
          lerpJS (bracket1 obj t).longitude (bracket2 obj t).longitude (interpFrac obj t)
              = some (a + (b - a) * f)
            ∧ min a b ≤ a + (b - a) * f ∧ a + (b - a) * f ≤ max a b)
      ∧ (∀ a b : ℚ, (bracket1 obj t).latitude = some a →
          (bracket2 obj t).latitude = some b →
          lerpJS (bracket1 obj t).latitude (bracket2 obj t).latitude (interpFrac obj t)
              = some (a + (b - a) * f)
            ∧ min a b ≤ a + (b - a) * f ∧ a + (b - a) * f ≤ max a b)
      ∧ (∀ a b : ℚ, (bracket1 obj t).altitude = some a →
          (bracket2 obj t).altitude = some b →
          lerpJS (bracket1 obj t).altitude (bracket2 obj t).altitude (interpFrac obj t)
              = some (a + (b - a) * f)
            ∧ min a b ≤ a + (b - a) * f ∧ a + (b - a) * f ≤ max a b) := by
  refine ⟨getInterpolatedState_active m enu sc obj t hact, ?_⟩
  rcases interpFrac_unit obj t hs hact with ⟨f, hf, h0, h1⟩
  refine ⟨f, hf, h0, h1, ?_, ?_, ?_⟩
  all_goals
    intro a b ha hb
    rw [ha, hb, hf]
    exact ⟨rfl, (lerp_between a b f h0 h1).1, (lerp_between a b f h0 h1).2⟩

/-- Witness for claim C10's theorem: `objTwo` at time 2, midway between
its samples at times 1 and 3. -/
theorem claim10_witness :
    timesSorted objTwo.states = true
    ∧ isActiveAt objTwo (some 2) = true
    ∧ (getInterpolatedState mathZero mat4Identity scratch0 objTwo (some 2)
        = interpolateActive mathZero mat4Identity scratch0 objTwo
            (bracket1 objTwo (some 2)) (bracket2 objTwo (some 2)) (some 2)
       ∧ ∃ f : ℚ, interpFrac objTwo (some 2) = some f ∧ 0 ≤ f ∧ f ≤ 1
         ∧ (∀ a b : ℚ, (bracket1 objTwo (some 2)).longitude = some a →
             (bracket2 objTwo (some 2)).longitude = some b →
             lerpJS (bracket1 objTwo (some 2)).longitude (bracket2 objTwo (some 2)).longitude
                 (interpFrac objTwo (some 2)) = some (a + (b - a) * f)
               ∧ min a b ≤ a + (b - a) * f ∧ a + (b - a) * f ≤ max a b)
         ∧ (∀ a b : ℚ, (bracket1 objTwo (some 2)).latitude = some a →
             (bracket2 objTwo (some 2)).latitude = some b →
             lerpJS (bracket1 objTwo (some 2)).latitude (bracket2 objTwo (some 2)).latitude
                 (interpFrac objTwo (some 2)) = some (a + (b - a) * f)
               ∧ min a b ≤ a + (b - a) * f ∧ a + (b - a) * f ≤ max a b)
         ∧ (∀ a b : ℚ, (bracket1 objTwo (some 2)).altitude = some a →
             (bracket2 objTwo (some 2)).altitude = some b →
             lerpJS (bracket1 objTwo (some 2)).altitude (bracket2 objTwo (some 2)).altitude
                 (interpFrac objTwo (some 2)) = some (a + (b - a) * f)
               ∧ min a b ≤ a + (b - a) * f ∧ a + (b - a) * f ≤ max a b)) :=
  ⟨by with_unfolding_all exact rfl, by with_unfolding_all exact rfl,
   claim10_fraction_unit_and_convexity mathZero mat4Identity scratch0 objTwo (some 2)
     (by with_unfolding_all exact rfl) (by with_unfolding_all exact rfl)⟩

/-- Input and parse result for the C4 witness: two frame markers, `#2`
then `#1`. -/
def sampleTwoFrames : String := "FileType=text/acmi/tacview\n#2\n#1"

/-- The dataset `parse sampleTwoFrames` produces. -/
def dataTwoFrames : AcmiData :=
  { objects := [], startTime := some 2, endTime := some 2
    referenceTimeRaw := none, referenceLongitude := some 0, referenceLatitude := some 0 }

/-- Witness for claim C4's theorem on `sampleTwoFrames`: `startTime` is
the first frame time 2 and `endTime` the running maximum 2. -/
theorem claim4_witness :
    dataTwoFrames.startTime = ((frameTimesOf sampleTwoFrames).head?).getD (some 0)
    ∧ dataTwoFrames.endTime = (frameTimesOf sampleTwoFrames).foldl jsMax (some 0) :=
  claim4_start_end_of_frame_markers sampleTwoFrames dataTwoFrames
    (by with_unfolding_all exact rfl)
